import Mathlib

/-!
Shallow embedding, in Lean, of the endpoint-inference and spec-reconciliation
engine of the Metlo API-security backend: the statistical path generalizer
(`getCounterMap` / `getDistinctPaths` / `getTopSuggestedPaths`), the trace
ingestion entry points (`logRequest` / `logRequestBatch`), the OpenAPI diff
entry point (`findOpenApiSpecDiff`), and the spec-upload / path-update
endpoint resolution and merge logic (`uploadNewSpec`, `generateEndpointsMap`,
`updateEndpointsFromMap`).

Stateful database and queue interactions are embedded as explicit state
passing over list-backed tables; JavaScript objects used as ordered string
maps are embedded as insertion-ordered association lists; JavaScript float
arithmetic on occurrence fractions is embedded as exact rational arithmetic
(the fractions involved are ratios of small naturals, far coarser than double
precision, so the embedding is faithful on all reachable comparisons).
Helpers that live in shared utility packages outside the embedded sources
(tokenizer, path validation, regex construction, risk-score order table) are
modelled from the specification and marked as such in their doc comments.
-/

namespace Metlo

section

attribute [local semireducible] Rat.mul Rat.inv Rat.add Rat.ofScientific

/-- Splits a character list at every path separator, collecting the finished
segment accumulated (reversed) in `cur` whenever a separator is reached. -/
def splitSlashAux (cur : List Char) : List Char → List String
  | [] => [String.mk cur.reverse]
  | c :: rest =>
      if c = '/' then String.mk cur.reverse :: splitSlashAux [] rest
      else splitSlashAux (c :: cur) rest

/-- Modelled from the spec: the Path Tokenizer (`getPathTokens` lives in the
shared `@common/utils` package, outside the embedded backend sources). A path
is split on the path separator and the nonempty segment tokens are kept, in
order. -/
def getPathTokens (path : String) : List String :=
  (splitSlashAux [] path.data).filter (fun s => !(s == ""))

/-- Whether the first character of `s` is `c`. -/
def firstCharIs (s : String) (c : Char) : Bool :=
  match s.data with
  | [] => false
  | d :: _ => d = c

/-- Whether the last character of `s` is `c`. -/
def lastCharIs (s : String) (c : Char) : Bool :=
  match s.data.getLast? with
  | none => false
  | some d => d = c

/-- Modelled from the spec: `isParameter` (from the backend `utils` package,
outside the embedded sources): a segment is a parameter token iff it is
wrapped in the curly-brace placeholder delimiter syntax. -/
def isParameter (s : String) : Bool :=
  firstCharIs s '\x7b' && lastCharIs s '\x7d'

/-- Modelled from the spec: `endpointAddNumberParams` / `addNumberParams`
(model helpers outside the embedded sources) count the placeholder segments
of a path template. -/
def countParams (path : String) : Nat :=
  ((getPathTokens path).filter (fun t => isParameter t)).length

/-- Rebuilds a path string from segment tokens by prepending the separator to
each token, starting from the accumulated prefix `s`; this is the shape of
the string accumulation performed by `getDistinctPaths`. -/
def rebuildPath (s : String) (toks : List String) : String :=
  toks.foldl (fun acc t => acc ++ "/" ++ t) s

/-- Insertion-ordered association-list lookup, the embedding of reading a
string key of a JavaScript object. -/
def lookupA {α : Type} (m : List (String × α)) (k : String) : Option α :=
  (m.find? (fun kv => kv.fst == k)).map Prod.snd

/-- Insertion-ordered association-list write, the embedding of assigning a
string key of a JavaScript object: an existing key keeps its position, a new
key is appended. -/
def setA {α : Type} : List (String × α) → String → α → List (String × α)
  | [], k, v => [(k, v)]
  | kv :: rest, k, v =>
      if kv.1 == k then (k, v) :: rest else kv :: setA rest k v

/-- Insertion-ordered association-list delete, the embedding of the
JavaScript `delete` operator on a string key: the key is removed, the other
keys keep their order. -/
def eraseA {α : Type} (m : List (String × α)) (k : String) :
    List (String × α) :=
  m.filter (fun kv => !(kv.fst == k))

/-- One observed trace row as consumed by the embedded services; only the
columns the embedded logic reads are carried. -/
structure ApiTraceRec where
  uuid : String
  apiEndpointUuid : String
  path : String
deriving DecidableEq, Repr

/-! ### Statistical Path Generalizer -/

/-- `TRACE_LIMIT` bounds the generalizer's sample size. -/
def TRACE_LIMIT : Nat := 10000

/-- `THRESHOLD` is the occurrence-fraction threshold of the generalizer. -/
def THRESHOLD : ℚ := 0.1

/-- A single counter increment of `getCounterMap`: the count at position `i`
for token `tok` goes up by one. The nested counter object is embedded as a
function from position and token to count. -/
def bump (cm : Nat → String → Nat) (i : Nat) (tok : String) :
    Nat → String → Nat :=
  fun pos t => if pos = i ∧ t = tok then cm pos t + 1 else cm pos t

/-- The inner loop of `getCounterMap`: walk the tokens of one path, bumping
the counter of each (position, token) pair; `i` is the running position. -/
def bumpTokens (cm : Nat → String → Nat) (i : Nat) :
    List String → (Nat → String → Nat)
  | [] => cm
  | tok :: rest => bumpTokens (bump cm i tok) (i + 1) rest

/-- `getCounterMap`: per-position per-token frequency counts over all sampled
traces. -/
def getCounterMap (traces : List ApiTraceRec) : Nat → String → Nat :=
  traces.foldl (fun cm trace => bumpTokens cm 0 (getPathTokens trace.path))
    (fun _ _ => 0)

/-- One step of the per-path segment walk of `getDistinctPaths`: the running
state is (accumulated path string, accumulated total fraction, next parameter
number); a token whose occurrence fraction is strictly below `THRESHOLD` is
rendered as a placeholder, otherwise it is kept verbatim. -/
def genStep (cm : Nat → String → Nat) (numTraces : ℚ) (i : Nat) (tok : String)
    (st : String × ℚ × Nat) : String × ℚ × Nat :=
  let tokenPercentOccurence : ℚ := (cm i tok : ℚ) / numTraces
  if tokenPercentOccurence < THRESHOLD then
    (st.1 ++ "/\x7bparam" ++ toString st.2.2 ++ "\x7d",
      st.2.1 + tokenPercentOccurence, st.2.2 + 1)
  else
    (st.1 ++ "/" ++ tok, st.2.1 + tokenPercentOccurence, st.2.2)

/-- The segment walk of `getDistinctPaths` over one path's token list; `i` is
the running position index. -/
def genTokens (cm : Nat → String → Nat) (numTraces : ℚ) :
    Nat → (String × ℚ × Nat) → List String → String × ℚ × Nat
  | _, st, [] => st
  | i, st, tok :: rest =>
      genTokens cm numTraces (i + 1) (genStep cm numTraces i tok st) rest

/-- The candidate template generated by `getDistinctPaths` for one source
path: the string component of the segment walk started at position 0 with an
empty accumulator and parameter number 1. -/
def templateOf (cm : Nat → String → Nat) (numTraces : ℚ) (p : String) :
    String :=
  (genTokens cm numTraces 0 ("", 0, 1) (getPathTokens p)).1

/-- The confidence `getDistinctPaths` computes for one source path: the
average of the per-segment occurrence fractions. -/
def avgOf (cm : Nat → String → Nat) (numTraces : ℚ) (p : String) : ℚ :=
  (genTokens cm numTraces 0 ("", 0, 1) (getPathTokens p)).2.1 /
    ((getPathTokens p).length : ℚ)

/-- The per-template record update of `getDistinctPaths`: a new template is
inserted; an existing one is overwritten when its stored value is falsy or
the new average is greater. -/
def insertMaxStep (dp : List (String × ℚ)) (path : String) (avg : ℚ) :
    List (String × ℚ) :=
  match lookupA dp path with
  | none => dp ++ [(path, avg)]
  | some v => if v = 0 ∨ avg > v then setA dp path avg else dp

/-- `getDistinctPaths`: per distinct generated template, the running maximum
of the average occurrence fraction over the source paths generalizing to it,
in first-generated order. -/
def getDistinctPaths (cm : Nat → String → Nat) (traces : List ApiTraceRec)
    (numTraces : ℚ) : List (String × ℚ) :=
  traces.foldl
    (fun dp t =>
      insertMaxStep dp (templateOf cm numTraces t.path)
        (avgOf cm numTraces t.path))
    []

/-- Descending-order stable insertion used to embed the comparator sort of
`getTopSuggestedPaths`: a key is placed before the first key of strictly
smaller value. -/
def insertSorted (dval : String → ℚ) (k : String) :
    List String → List String
  | [] => [k]
  | x :: xs =>
      if dval x < dval k then k :: x :: xs else x :: insertSorted dval k xs

/-- The comparator sort of `getTopSuggestedPaths`: template keys sorted by
descending stored confidence, stable on ties. -/
def sortKeysDesc (dp : List (String × ℚ)) : List String :=
  (dp.map Prod.fst).foldl
    (fun acc k => insertSorted (fun s => (lookupA dp s).getD 0) k acc) []

/-- The distinct-template map computed by `getTopSuggestedPaths` for a given
sample: counter map and averages are both taken over the full sample. -/
def distinctPathsOf (traces : List ApiTraceRec) : List (String × ℚ) :=
  getDistinctPaths (getCounterMap traces) traces (traces.length : ℚ)

/-- `getTopSuggestedPaths` (pure core; the database supplies `traces` as the
up-to-`TRACE_LIMIT` most recent rows of the endpoint): distinct generated
templates sorted by descending confidence, truncated to the top 100. -/
def getTopSuggestedPaths (traces : List ApiTraceRec) : List String :=
  (sortKeysDesc (distinctPathsOf traces)).take 100

example : THRESHOLD = 1 / 10 := by norm_num [THRESHOLD]

example : ((1 : ℚ) / 10 < THRESHOLD) = False := by
  norm_num [THRESHOLD]

example :
    getTopSuggestedPaths [⟨"t", "e", "/users/5"⟩, ⟨"u", "e", "/users/5"⟩] =
      ["/users/5"] := by decide

/-! ### Data model -/

/-- Risk score enumeration of an endpoint identity. -/
inductive RiskScore
  | NONE
  | LOW
  | MEDIUM
  | HIGH
  | CRITICAL
deriving DecidableEq, Repr

/-- Modelled from the spec: `RISK_SCORE_ORDER` (a constants table outside the
embedded sources) ranks the risk scores NONE < LOW < MEDIUM < HIGH <
CRITICAL. -/
def RISK_SCORE_ORDER : RiskScore → Nat
  | .NONE => 0
  | .LOW => 1
  | .MEDIUM => 2
  | .HIGH => 3
  | .CRITICAL => 4

/-- One endpoint identity row; only the columns the embedded logic reads are
carried. -/
structure ApiEndpoint where
  uuid : String
  path : String
  method : String
  host : String
  numberParams : Nat
  openapiSpecName : Option String
  riskScore : Option RiskScore
  firstDetected : Nat
  lastActive : Nat
deriving DecidableEq, Repr

/-- One stored OpenAPI spec document row. -/
structure OpenApiSpecRec where
  name : String
  isAutoGenerated : Bool
  spec : String
  specUpdatedAt : Nat
  updatedAt : Nat
  createdAt : Nat
  hosts : List String
deriving DecidableEq, Repr

/-- Alert categories relevant to the merge executor: the two discovery-bound
categories deleted on merge, and everything else. -/
inductive AlertType
  | NEW_ENDPOINT
  | OPEN_API_SPEC_DIFF
  | OTHER
deriving DecidableEq, Repr

/-- One alert row; only the columns the merge executor reads are carried. -/
structure AlertRec where
  uuid : String
  apiEndpointUuid : String
  type : AlertType
deriving DecidableEq, Repr

/-- One discovered data-field row. -/
structure DataFieldRec where
  uuid : String
  apiEndpointUuid : String
deriving DecidableEq, Repr

/-- One hourly aggregate row. -/
structure AggregateRec where
  apiEndpointUuid : String
  hour : Nat
deriving DecidableEq, Repr

/-- The persistent state touched by the spec-upload and path-update flows:
every table is a list of rows. -/
structure SpecDB where
  endpoints : List ApiEndpoint
  specs : List OpenApiSpecRec
  traces : List ApiTraceRec
  dataFields : List DataFieldRec
  alerts : List AlertRec
  aggregates : List AggregateRec
deriving DecidableEq, Repr

/-- Modelled from the spec: `getValidPath` (backend `utils`, outside the
embedded sources) validates a path syntactically: it must be nonempty, begin
with the separator, contain no empty segment, and — when an expected segment
count is supplied, as in the path-update flow — have exactly that many
segments. The result carries the validity flag, the (unchanged) path and a
human-readable reason. -/
structure ValidPath where
  isValid : Bool
  path : String
  errMsg : String
deriving DecidableEq, Repr

/-- Modelled from the spec: see `ValidPath`. -/
def getValidPath (p : String) (expectedTokens : Option Nat) : ValidPath :=
  if p == "" then ⟨false, p, "provided path is empty"⟩
  else if !(firstCharIs p '/') then
    ⟨false, p, "path must begin with the separator"⟩
  else if ((splitSlashAux [] p.data).drop 1).any (fun s => s == "") then
    ⟨false, p, "path contains an empty segment"⟩
  else
    match expectedTokens with
    | some n =>
        if (getPathTokens p).length ≠ n then
          ⟨false, p, "path has the wrong number of segments"⟩
        else ⟨true, p, ""⟩
    | none => ⟨true, p, ""⟩

/-- Modelled from the spec: segment-level pattern matching of the compiled
`pathRegex` — a parameter segment matches any nonempty literal segment, a
literal segment matches only itself. -/
def segMatch (pat lit : String) : Bool :=
  if isParameter pat then !(lit == "") else pat == lit

/-- Modelled from the spec: `getPathRegex` compilation plus regex matching —
a path matches a pattern iff the segment counts agree and every segment
matches per `segMatch`. -/
def regexMatch (patternPath litPath : String) : Bool :=
  let pts := getPathTokens patternPath
  let lts := getPathTokens litPath
  pts.length == lts.length && (List.zip pts lts).all (fun pl => segMatch pl.1 pl.2)

/-! ### Trace-logging service (`LogRequestService`) -/

/-- One queued trace object as assembled by `logRequest`. -/
structure QueuedApiTrace where
  path : String
  method : String
  host : String
  createdAt : Nat
deriving DecidableEq, Repr

/-- The caller-supplied trace parameters of `logRequest`; only the fields the
embedded logic reads are carried. -/
structure TraceParams where
  path : String
  method : String
  host : String
deriving DecidableEq, Repr

/-- Errors raised by the trace-logging service, with their HTTP status
class. -/
inductive LogErr
  | badRequest (msg : String)
  | internalServer (msg : String)
deriving DecidableEq, Repr

/-- The HTTP status code of a trace-logging error. -/
def LogErr.code : LogErr → Nat
  | .badRequest _ => 400
  | .internalServer _ => 500

/-- External state of `logRequest`: whether the queue-length query succeeds,
the pending-trace queue itself, and the external redaction and
session-metadata services (each transforms the assembled trace). -/
structure LogEnv where
  queueLenOk : Bool
  queue : List QueuedApiTrace
  redactFn : QueuedApiTrace → QueuedApiTrace
  sessionFn : QueuedApiTrace → QueuedApiTrace

/-- The body of `logRequest`'s outer try block: read the queue length
(failures of the length query are swallowed, leaving 0); drop the trace when
the backlog exceeds 1000; validate the path (invalid paths raise a 400);
assemble, redact, session-annotate and enqueue the trace. -/
def logRequestTry (env : LogEnv) (tp : TraceParams) (currTime : Nat) :
    Except LogErr LogEnv :=
  let queueLength := if env.queueLenOk then env.queue.length else 0
  if queueLength > 1000 then .ok env
  else
    let validPath := getValidPath tp.path none
    if !validPath.isValid then
      .error (.badRequest ("Invalid path " ++ tp.path ++ ": " ++
        validPath.errMsg))
    else
      let apiTraceObj : QueuedApiTrace :=
        { path := validPath.path, method := tp.method, host := tp.host,
          createdAt := currTime }
      let t1 := env.redactFn apiTraceObj
      let t2 := env.sessionFn t1
      .ok { env with queue := env.queue ++ [t2] }

/-- `logRequest`: the try body wrapped in the outer catch, which rethrows
errors below the 500 class unchanged and wraps everything else into an
internal-server error. -/
def logRequest (env : LogEnv) (tp : TraceParams) (currTime : Nat) :
    Except LogErr LogEnv :=
  match logRequestTry env tp currTime with
  | .ok v => .ok v
  | .error err =>
      if err.code < 500 then .error err
      else .error (.internalServer "error in Log Request service")

/-- `logRequestBatch`: the traces are logged strictly in order; the first
error aborts the batch, keeping the queue state reached so far. -/
def logRequestBatch : LogEnv → Nat → List TraceParams → Option LogErr × LogEnv
  | env, _, [] => (none, env)
  | env, t, tp :: rest =>
      match logRequest env tp t with
      | .ok env2 => logRequestBatch env2 t rest
      | .error e => (some e, env)

/-! ### Spec Reconciliation entry point (`findOpenApiSpecDiff`) -/

/-- External state of `findOpenApiSpecDiff`: the result of looking up the
endpoint's declared spec document (the lookup itself may fail), and the
result of the whole dereference-validate-alert pipeline (external parser and
validators, `./utils` helpers and alert creation), abstracted as a fallible
computation producing alert descriptors. -/
structure DiffEnv where
  specLookup : Except String (Option OpenApiSpecRec)
  innerDiff : Except String (List String)

/-- `findOpenApiSpecDiff`: inside one try block, look up the declared spec —
returning no alerts when there is none or it is auto-generated — then run the
diff pipeline; the surrounding catch turns any failure into an empty alert
list. -/
def findOpenApiSpecDiff (env : DiffEnv) : Except String (List String) :=
  let body : Except String (List String) :=
    match env.specLookup with
    | .error e => .error e
    | .ok none => .ok []
    | .ok (some openApiSpec) =>
        if openApiSpec.isAutoGenerated then .ok []
        else env.innerDiff
  match body with
  | .error _ => .ok []
  | .ok v => .ok v

/-! ### Endpoint Identity Resolver: the similar-endpoints map -/

/-- One entry of the batch resolution map: a surviving endpoint plus the
pre-existing endpoints it supersedes, keyed by uuid. -/
structure EndpointsMap where
  endpoint : ApiEndpoint
  similarEndpoints : List (String × ApiEndpoint)
deriving DecidableEq, Repr

/-- One step of the scan over the batch map performed for a similar
pre-existing endpoint `item` while resolving candidate `apiEndpoint`: when a
recorded entry already holds `item`, the running flag is set; `item` is
stolen from that entry — resetting the flag — iff the candidate's parameter
count equals `item`'s, or the recorded endpoint's parameter count differs
from `item`'s and the candidate has strictly fewer parameters than the
recorded endpoint. -/
def scanForItem (apiEndpoint item : ApiEndpoint)
    (st : List (String × EndpointsMap) × Bool) (uuid : String) :
    List (String × EndpointsMap) × Bool :=
  match lookupA st.1 uuid with
  | none => st
  | some entry =>
      match lookupA entry.similarEndpoints item.uuid with
      | none => st
      | some _ =>
          if apiEndpoint.numberParams = item.numberParams ∨
              (entry.endpoint.numberParams ≠ item.numberParams ∧
                apiEndpoint.numberParams < entry.endpoint.numberParams) then
            (setA st.1 uuid
              { entry with
                similarEndpoints := eraseA entry.similarEndpoints item.uuid },
              false)
          else (st.1, true)

/-- Records `item` under the candidate's entry of the batch map. -/
def addSimilar (m : List (String × EndpointsMap)) (uuid : String)
    (item : ApiEndpoint) : List (String × EndpointsMap) :=
  match lookupA m uuid with
  | none => m
  | some entry =>
      setA m uuid
        { entry with
          similarEndpoints := setA entry.similarEndpoints item.uuid item }

/-- The similar-endpoints loop shared by `uploadNewSpec` and
`generateEndpointsMap`: each similar pre-existing endpoint that is not itself
a batch key is scanned against all recorded entries (`scanForItem`) and, when
no entry keeps it, recorded under the current candidate. -/
def processSimilar (m : List (String × EndpointsMap))
    (apiEndpoint : ApiEndpoint) (similars : List ApiEndpoint) :
    List (String × EndpointsMap) :=
  similars.foldl
    (fun m0 item =>
      let st :=
        if (lookupA m0 item.uuid).isSome then (m0, false)
        else (m0.map Prod.fst).foldl (scanForItem apiEndpoint item) (m0, false)
      if st.2 then st.1 else addSimilar st.1 apiEndpoint.uuid item)
    m

/-! ### Merge executor -/

/-- Upserts an endpoint row by uuid: an existing row is replaced in place, a
new row is appended. -/
def saveEndpoint (endpoints : List ApiEndpoint) (e : ApiEndpoint) :
    List ApiEndpoint :=
  if (endpoints.find? (fun x => x.uuid == e.uuid)).isSome then
    endpoints.map (fun x => if x.uuid == e.uuid then e else x)
  else endpoints ++ [e]

/-- Deletes the endpoint rows whose uuid is in `ids` (the direct delete query
of `uploadNewSpec`, and — modelled from the spec — the
`GetEndpointsService.deleteEndpointsBatch` helper of the path-update flow,
which lives outside the embedded sources). -/
def deleteEndpointsBatch (endpoints : List ApiEndpoint) (ids : List String) :
    List ApiEndpoint :=
  endpoints.filter (fun e => !(ids.contains e.uuid))

/-- Modelled from the spec: `ApiEndpoint.updateDates` (entity method outside
the embedded sources) widens the activity window with one timestamp. -/
def updateDates (e : ApiEndpoint) (d : Nat) : ApiEndpoint :=
  { e with firstDetected := min e.firstDetected d,
           lastActive := max e.lastActive d }

/-- The risk-score comparison of the merge loop: the stored table rank of the
left score is strictly below that of the right; any missing score makes the
comparison false (a lookup of a missing key is undefined and every comparison
with undefined is false). -/
def riskLtB : Option RiskScore → Option RiskScore → Bool
  | some a, some b => RISK_SCORE_ORDER a < RISK_SCORE_ORDER b
  | _, _ => false

/-- One step of the attribute-merge loop of `uploadNewSpec` (lines 335-347):
the survivor takes the superseded endpoint's risk score when it has none or
its own ranks strictly lower, then widens its activity window with the
superseded endpoint's `firstDetected` and `lastActive`. -/
def mergeAttrsStep (acc e : ApiEndpoint) : ApiEndpoint :=
  let acc1 :=
    if acc.riskScore.isNone || riskLtB acc.riskScore e.riskScore then
      { acc with riskScore := e.riskScore }
    else acc
  updateDates (updateDates acc1 e.firstDetected) e.lastActive

/-- The attribute-merge loop of `uploadNewSpec` over all superseded
endpoints of one surviving identity. -/
def mergeSimilar (survivor : ApiEndpoint) (sims : List ApiEndpoint) :
    ApiEndpoint :=
  sims.foldl mergeAttrsStep survivor

/-- The per-survivor merge of `uploadNewSpec`'s write phase: save the
survivor; when it supersedes anything, merge attributes, save again, repoint
traces, data fields (copy-insert then delete, netting a repoint) and
non-discovery alerts, delete new-endpoint and spec-diff alerts of the
superseded identities, merge hourly aggregates onto the survivor, and delete
the superseded endpoint rows. -/
def applyMergeItem (db : SpecDB) (item : EndpointsMap) : SpecDB :=
  let db1 := { db with endpoints := saveEndpoint db.endpoints item.endpoint }
  let similarEndpointUuids := item.similarEndpoints.map (fun kv => kv.2.uuid)
  let merged := mergeSimilar item.endpoint (item.similarEndpoints.map Prod.snd)
  if similarEndpointUuids.isEmpty then db1
  else
    { db1 with
      endpoints :=
        deleteEndpointsBatch (saveEndpoint db1.endpoints merged)
          similarEndpointUuids,
      traces := db1.traces.map (fun t =>
        if similarEndpointUuids.contains t.apiEndpointUuid then
          { t with apiEndpointUuid := merged.uuid }
        else t),
      dataFields := db1.dataFields.map (fun d =>
        if similarEndpointUuids.contains d.apiEndpointUuid then
          { d with apiEndpointUuid := merged.uuid }
        else d),
      alerts := db1.alerts.filterMap (fun a =>
        if similarEndpointUuids.contains a.apiEndpointUuid then
          if a.type == AlertType.NEW_ENDPOINT ||
              a.type == AlertType.OPEN_API_SPEC_DIFF then none
          else some { a with apiEndpointUuid := merged.uuid }
        else some a),
      aggregates := db1.aggregates.map (fun g =>
        if similarEndpointUuids.contains g.apiEndpointUuid then
          { g with apiEndpointUuid := merged.uuid }
        else g) }

/-! ### Spec upload (`uploadNewSpec`) -/

/-- Errors raised by the spec-upload flow. -/
inductive SpecErr
  | conflict (msg : String)
  | unprocessableEntity (msg : String)
  | internalServer (msg : String)
deriving DecidableEq, Repr

/-- One (path, method, host) operation of the uploaded spec document, after
servers/hosts resolution (the spec parsing, schema validation and
server-list extraction helpers live outside the embedded sources; the upload
batch is therefore taken as the already-extracted list of operations the
nested path/method/host loops of `uploadNewSpec` iterate over). -/
structure SpecEntry where
  path : String
  method : String
  host : String
deriving DecidableEq, Repr

/-- Exact-match lookup of an endpoint by (path, method, host). -/
def findExactEndpoint (endpoints : List ApiEndpoint)
    (path method host : String) : Option ApiEndpoint :=
  endpoints.find? (fun e =>
    e.path == path && e.method == method && e.host == host)

/-- Lookup of a stored spec document by name. -/
def lookupSpec (specs : List OpenApiSpecRec) (name : String) :
    Option OpenApiSpecRec :=
  specs.find? (fun s => s.name == name)

/-- The cleanup performed for an `updated` exact match: the endpoint's uuid
is removed from every entry's similar-endpoints sub-map. -/
def removeFromAllSimilar (m : List (String × EndpointsMap)) (uuid : String) :
    List (String × EndpointsMap) :=
  m.map (fun kv =>
    (kv.1, { kv.2 with similarEndpoints := eraseA kv.2.similarEndpoints uuid }))

/-- The body of `uploadNewSpec`'s resolution loop for one (path, method,
host) operation: an exact (path, method, host) match owned by no spec or by
an auto-generated spec is re-attached to the uploaded spec (`updated`); an
exact match owned by any other user-defined spec raises `Conflict`; with no
exact match a fresh endpoint is created and the pre-existing endpoints whose
stored path matches the candidate's compiled pattern are resolved through
`processSimilar`. The state is the batch map plus the fresh-uuid counter. -/
def processSpecEntry (db : SpecDB) (fileName : String) (currTime : Nat)
    (st : List (String × EndpointsMap) × Nat) (entry : SpecEntry) :
    Except SpecErr (List (String × EndpointsMap) × Nat) :=
  match findExactEndpoint db.endpoints entry.path entry.method entry.host with
  | none =>
      let apiEndpoint : ApiEndpoint :=
        { uuid := "new" ++ toString st.2, path := entry.path,
          method := entry.method, host := entry.host,
          numberParams := countParams entry.path,
          openapiSpecName := some fileName, riskScore := none,
          firstDetected := currTime, lastActive := currTime }
      let m1 := setA st.1 apiEndpoint.uuid ⟨apiEndpoint, []⟩
      let similars := db.endpoints.filter (fun e =>
        regexMatch entry.path e.path && e.method == entry.method &&
          e.host == entry.host)
      .ok (processSimilar m1 apiEndpoint similars, st.2 + 1)
  | some apiEndpoint =>
      let owningAutoGenerated :=
        ((apiEndpoint.openapiSpecName.bind (lookupSpec db.specs)).map
          (fun s => s.isAutoGenerated)).getD false
      if apiEndpoint.openapiSpecName.isNone || owningAutoGenerated then
        let upd := { apiEndpoint with openapiSpecName := some fileName }
        let m1 := setA st.1 upd.uuid ⟨upd, []⟩
        .ok (removeFromAllSimilar m1 upd.uuid, st.2)
      else
        .error (.conflict ("Path " ++ apiEndpoint.path ++
          " defined in the given new spec file is already defined in another user defined spec file: " ++
          (apiEndpoint.openapiSpecName.getD "")))

/-- Appends each element not yet present, the embedding of accumulating a
JavaScript Set in insertion order. -/
def dedupAppend (acc : List String) (xs : List String) : List String :=
  xs.foldl (fun a x => if a.contains x then a else a ++ [x]) acc

/-- Upserts a spec document row by name. -/
def saveSpecRec (specs : List OpenApiSpecRec) (s : OpenApiSpecRec) :
    List OpenApiSpecRec :=
  if (specs.find? (fun x => x.name == s.name)).isSome then
    specs.map (fun x => if x.name == s.name then s else x)
  else specs ++ [s]

/-- `uploadNewSpec` (resolution and write phases; the spec-version and
schema-validation preamble is external): the resolution loop reads the
database but writes only the in-memory batch map, so any `Conflict` raised
there leaves the state untouched; on success the spec document is upserted
and every batch entry is merged by `applyMergeItem` inside one transaction.
The first component of the result is the raised error, if any. -/
def uploadNewSpec (db : SpecDB) (fileName specString : String)
    (currTime : Nat) (entries : List SpecEntry) : Option SpecErr × SpecDB :=
  let existingSpec :=
    match lookupSpec db.specs fileName with
    | some s =>
        { s with spec := specString, specUpdatedAt := currTime,
                 updatedAt := currTime,
                 hosts := dedupAppend [] (entries.map (fun en => en.host)) }
    | none =>
        { name := fileName, isAutoGenerated := false, spec := specString,
          specUpdatedAt := currTime, updatedAt := currTime,
          createdAt := currTime,
          hosts := dedupAppend [] (entries.map (fun en => en.host)) }
  match entries.foldlM (processSpecEntry db fileName currTime) ([], 0) with
  | .error e => (some e, db)
  | .ok st =>
      let db1 := { db with specs := saveSpecRec db.specs existingSpec }
      (none, st.1.foldl (fun d kv => applyMergeItem d kv.2) db1)

/-! ### Path update flow (`generateEndpointsMap` / `updateEndpointsFromMap`) -/

/-- Errors raised by the path-update flow. -/
inductive ResolveErr
  | badRequest (msg : String)
  | notFound (msg : String)
deriving DecidableEq, Repr

/-- The validation loop of `generateEndpointsMap`: each provided path must be
syntactically valid with the endpoint's segment count and must not already
exist as an exact (path, method, host) endpoint; valid paths accumulate into
an insertion-ordered set. -/
def checkProvidedPath (db : List ApiEndpoint) (method host : String)
    (numTokens : Nat) (acc : List String) (item : String) :
    Except ResolveErr (List String) :=
  let validPath := getValidPath item (some numTokens)
  if !validPath.isValid then
    .error (.badRequest (item ++ ": " ++ validPath.errMsg))
  else
    match findExactEndpoint db validPath.path method host with
    | some _ =>
        .error (.badRequest (item ++
          ": An endpoint with this path already exists for this method and host."))
    | none =>
        .ok (if acc.contains validPath.path then acc else acc ++ [validPath.path])

/-- The candidate endpoint `generateEndpointsMap` creates for one provided
path; `k` feeds the fresh uuid. -/
def buildCandidate (path method host : String) (k : Nat) : ApiEndpoint :=
  { uuid := "cand" ++ toString k, path := path, method := method, host := host,
    numberParams := countParams path, openapiSpecName := none,
    riskScore := none, firstDetected := 0, lastActive := 0 }

/-- The per-path step of `generateEndpointsMap`'s second loop: create the
candidate, record it in the batch map, query the pre-existing endpoints
overlapping it (bidirectional pattern match, same method and host) and
resolve them through `processSimilar`. -/
def generateStep (db : List ApiEndpoint) (method host : String)
    (st : List (String × EndpointsMap) × Nat) (path : String) :
    List (String × EndpointsMap) × Nat :=
  let apiEndpoint := buildCandidate path method host st.2
  let m1 := setA st.1 apiEndpoint.uuid ⟨apiEndpoint, []⟩
  let similars := db.filter (fun e =>
    (regexMatch e.path path || regexMatch path e.path) &&
      e.method == method && e.host == host)
  (processSimilar m1 apiEndpoint similars, st.2 + 1)

/-- `generateEndpointsMap`: validate and dedupe the provided paths, then
build the batch resolution map candidate by candidate. -/
def generateEndpointsMap (db : List ApiEndpoint) (providedPaths : List String)
    (method host : String) (numTokens : Nat) :
    Except ResolveErr (List (String × EndpointsMap)) :=
  match providedPaths.foldlM (checkProvidedPath db method host numTokens) [] with
  | .error e => .error e
  | .ok set => .ok ((set.foldl (generateStep db method host) ([], 0)).1)

/-- `updateEndpointsFromMap`: each surviving candidate is saved with its risk
score reset to NONE, then its superseded endpoints are deleted in a batch;
no attribute of the superseded endpoints is propagated. -/
def updateEndpointsFromMap (db : SpecDB) (m : List (String × EndpointsMap)) :
    SpecDB :=
  m.foldl
    (fun d kv =>
      let e := { kv.2.endpoint with riskScore := some RiskScore.NONE }
      let d1 := { d with endpoints := saveEndpoint d.endpoints e }
      let ids := kv.2.similarEndpoints.map (fun p => p.2.uuid)
      if ids.isEmpty then d1
      else { d1 with endpoints := deleteEndpointsBatch d1.endpoints ids })
    db

/-! ### Derived notions used by the theorems -/

/-- The rank of an optional risk score under the stored order; a missing
score ranks at the bottom. -/
def riskRank : Option RiskScore → Nat
  | none => 0
  | some r => RISK_SCORE_ORDER r

/-- The steal condition of the similar-endpoints scan, read off
`scanForItem`: the current candidate takes `item` away from the recorded
candidate iff the current candidate's parameter count equals `item`'s, or
the recorded candidate's parameter count differs from `item`'s and the
current candidate has strictly fewer parameters than the recorded one. -/
def stealCond (current item recorded : ApiEndpoint) : Prop :=
  current.numberParams = item.numberParams ∨
    (recorded.numberParams ≠ item.numberParams ∧
      current.numberParams < recorded.numberParams)

instance (a b c : ApiEndpoint) : Decidable (stealCond a b c) := by
  unfold stealCond
  infer_instance

/-- The per-source-path confidences of all sample paths generalizing to
template `k`, for a fixed counter map and sample size. -/
def avgsForAux (cm : Nat → String → Nat) (numTraces : ℚ)
    (l : List ApiTraceRec) (k : String) : List ℚ :=
  (l.filter (fun t => templateOf cm numTraces t.path == k)).map
    (fun t => avgOf cm numTraces t.path)

/-- The per-source-path confidences of all sample paths generalizing to
template `k`. -/
def avgsFor (traces : List ApiTraceRec) (k : String) : List ℚ :=
  avgsForAux (getCounterMap traces) (traces.length : ℚ) traces k

/-! ### Concrete instances used by counterexamples and witnesses -/

/-- Ten sampled traces sharing segment 0 and holding ten pairwise distinct
tokens at segment 1, so every segment-1 token occurs in exactly 1 of the 10
traces: its occurrence fraction is exactly 0.1. -/
def tracesC4 : List ApiTraceRec :=
  [⟨"t0", "e", "/users/u0"⟩, ⟨"t1", "e", "/users/u1"⟩,
   ⟨"t2", "e", "/users/u2"⟩, ⟨"t3", "e", "/users/u3"⟩,
   ⟨"t4", "e", "/users/u4"⟩, ⟨"t5", "e", "/users/u5"⟩,
   ⟨"t6", "e", "/users/u6"⟩, ⟨"t7", "e", "/users/u7"⟩,
   ⟨"t8", "e", "/users/u8"⟩, ⟨"t9", "e", "/users/u9"⟩]

/-- A pre-existing endpoint identity with one parameter segment, overlapped
by both candidates of the C2 scenario. -/
def endpointP : ApiEndpoint :=
  { uuid := "P", path := "/users/\x7bx\x7d", method := "GET", host := "h",
    numberParams := 1, openapiSpecName := none, riskScore := none,
    firstDetected := 5, lastActive := 9 }

/-- Survivor of the C3 counterexample scenario. -/
def endpointS : ApiEndpoint :=
  { uuid := "S", path := "/a/\x7bid\x7d", method := "GET", host := "h",
    numberParams := 1, openapiSpecName := none,
    riskScore := some RiskScore.LOW, firstDetected := 10, lastActive := 20 }

/-- Superseded endpoint of the C3 counterexample scenario, carrying a
CRITICAL risk score. -/
def endpointQ : ApiEndpoint :=
  { uuid := "Q", path := "/a/b", method := "GET", host := "h",
    numberParams := 0, openapiSpecName := none,
    riskScore := some RiskScore.CRITICAL, firstDetected := 1,
    lastActive := 30 }

/-- Database of the C3 counterexample scenario. -/
def dbC3 : SpecDB :=
  { endpoints := [endpointQ], specs := [], traces := [], dataFields := [],
    alerts := [], aggregates := [] }

/-- A stored user-defined (non-auto-generated) spec document owning the
conflicting endpoint of the C1 scenario. -/
def specOther : OpenApiSpecRec :=
  { name := "other-spec", isAutoGenerated := false, spec := "x",
    specUpdatedAt := 0, updatedAt := 0, createdAt := 0, hosts := ["h"] }

/-- An endpoint already owned by `specOther`. -/
def endpointOwned : ApiEndpoint :=
  { uuid := "E1", path := "/orders/\x7bid\x7d", method := "GET", host := "h",
    numberParams := 1, openapiSpecName := some "other-spec",
    riskScore := some RiskScore.LOW, firstDetected := 1, lastActive := 2 }

/-- Database of the C1 witness scenario. -/
def dbC1 : SpecDB :=
  { endpoints := [endpointOwned], specs := [specOther], traces := [],
    dataFields := [], alerts := [], aggregates := [] }

/-- The uploaded operation colliding with `endpointOwned`. -/
def entryC1 : SpecEntry := ⟨"/orders/\x7bid\x7d", "GET", "h"⟩

/-- A trace-logging environment whose backlog holds 1001 pending traces. -/
def envC7 : LogEnv :=
  { queueLenOk := true,
    queue := List.replicate 1001 ⟨"/x", "GET", "h", 0⟩,
    redactFn := id, sessionFn := id }

/-- A trace-logging environment whose queue-length query fails. -/
def envC9 : LogEnv :=
  { queueLenOk := false, queue := [], redactFn := id, sessionFn := id }

/-- A trace-logging environment with an empty backlog. -/
def envC10 : LogEnv :=
  { queueLenOk := true, queue := [], redactFn := id, sessionFn := id }

/-- A diff environment finding a user-defined spec whose diff pipeline
fails. -/
def envC8 : DiffEnv :=
  { specLookup := .ok (some specOther), innerDiff := .error "parse failure" }

/-- Candidate with two parameter segments, used by the C2 amended
witness. -/
def candW1 : ApiEndpoint :=
  { uuid := "w1", path := "/a/\x7bp\x7d/\x7bq\x7d", method := "GET",
    host := "h", numberParams := 2, openapiSpecName := none,
    riskScore := none, firstDetected := 0, lastActive := 0 }

/-- Candidate with one parameter segment, used by the C2 amended witness. -/
def candW2 : ApiEndpoint :=
  { uuid := "w2", path := "/a/\x7bp\x7d/c", method := "GET", host := "h",
    numberParams := 1, openapiSpecName := none, riskScore := none,
    firstDetected := 0, lastActive := 0 }

/-- Pre-existing endpoint with one parameter segment, used by the C2 amended
witness. -/
def itemW : ApiEndpoint :=
  { uuid := "wP", path := "/a/b/\x7br\x7d", method := "GET", host := "h",
    numberParams := 1, openapiSpecName := none, riskScore := none,
    firstDetected := 0, lastActive := 0 }

/-- A three-trace sample used by the C6 witness. -/
def tracesC6 : List ApiTraceRec :=
  [⟨"t0", "e", "/users/1"⟩, ⟨"t1", "e", "/users/1"⟩, ⟨"t2", "e", "/shops/9"⟩]

/-! ## Theorems -/

/-- Claim C7: for every trace-logging request observed while the
pending-trace queue length exceeds 1000 items and the length query succeeds,
`logRequest` returns normally, leaving the environment — in particular the
queue — untouched and raising no error: the trace is silently dropped. -/
theorem logRequest_backpressure_drop (env : LogEnv) (tp : TraceParams)
    (currTime : Nat) (hq : env.queueLenOk = true)
    (hlen : 1000 < env.queue.length) :
    logRequest env tp currTime = .ok env := by
  unfold logRequest logRequestTry
  simp [hq, hlen]

/-- Witness for C7: a concrete environment with 1001 pending traces drops
the incoming trace without error. -/
theorem logRequest_backpressure_drop_witness :
    logRequest envC7 ⟨"/a", "GET", "h"⟩ 0 = .ok envC7 :=
  logRequest_backpressure_drop envC7 ⟨"/a", "GET", "h"⟩ 0 rfl
    (by norm_num [envC7])

/-- Claim C9: the backpressure check is failure-open — when the queue-length
query fails, the length is treated as 0, so a trace with a valid path is
still validated and enqueued rather than dropped or rejected. -/
theorem logRequest_failure_open (env : LogEnv) (tp : TraceParams)
    (currTime : Nat) (hq : env.queueLenOk = false)
    (hvalid : (getValidPath tp.path none).isValid = true) :
    logRequest env tp currTime =
      .ok { env with queue := env.queue ++
        [env.sessionFn (env.redactFn
          ⟨(getValidPath tp.path none).path, tp.method, tp.host,
            currTime⟩)] } := by
  unfold logRequest logRequestTry
  simp [hq, hvalid]

/-- Witness for C9: with a failing queue-length query, a concrete valid
trace is enqueued. -/
theorem logRequest_failure_open_witness :
    logRequest envC9 ⟨"/users/1", "GET", "h"⟩ 7 =
      .ok { envC9 with queue := envC9.queue ++
        [envC9.sessionFn (envC9.redactFn
          ⟨(getValidPath "/users/1" none).path, "GET", "h", 7⟩)] } :=
  logRequest_failure_open envC9 ⟨"/users/1", "GET", "h"⟩ 7 rfl (by decide)

/-- Claim C8: `findOpenApiSpecDiff` never raises an error to its caller; it
returns an empty alert set when the endpoint has no declared spec or the
declared spec is auto-generated, and any failure of the diff pipeline
likewise yields an empty alert set. -/
theorem findOpenApiSpecDiff_never_raises (env : DiffEnv) :
    (∃ v, findOpenApiSpecDiff env = .ok v) ∧
    (env.specLookup = .ok none → findOpenApiSpecDiff env = .ok []) ∧
    (∀ s, env.specLookup = .ok (some s) → s.isAutoGenerated = true →
      findOpenApiSpecDiff env = .ok []) ∧
    (∀ msg, env.innerDiff = .error msg → findOpenApiSpecDiff env = .ok []) := by
  unfold findOpenApiSpecDiff
  rcases hsl : env.specLookup with e | os
  · simp [hsl]
  · rcases os with _ | s
    · simp [hsl]
    · rcases hauto : s.isAutoGenerated with _ | _
      · rcases hid : env.innerDiff with m | v
        · simp [hsl, hauto, hid]
        · simp [hsl, hauto, hid]
      · simp [hsl, hauto]

/-- Witness for C8: a concrete environment whose diff pipeline fails still
yields an empty alert set without raising. -/
theorem findOpenApiSpecDiff_never_raises_witness :
    findOpenApiSpecDiff envC8 = .ok [] :=
  (findOpenApiSpecDiff_never_raises envC8).2.2.2 "parse failure" rfl

/-- Counterexample to claim C4, as stated: in a sample of exactly 10 traces
where the segment-1 token "u0" occurs in exactly 1 of the 10 (occurrence
fraction exactly 0.1), the generated template keeps that segment literal —
the template for "/users/u0" is "/users/u0" itself, and no generated
template renders segment 1 as a placeholder. -/
theorem generalizer_threshold_counterexample :
    tracesC4.length = 10 ∧
    getCounterMap tracesC4 1 "u0" = 1 ∧
    templateOf (getCounterMap tracesC4) (10 : ℚ) "/users/u0" = "/users/u0" ∧
    ¬ ("/users/\x7bparam1\x7d" ∈ (distinctPathsOf tracesC4).map Prod.fst) := by
  decide

/-- Claim C4 (amended): the threshold comparison is strict, so an occurrence
fraction exactly equal to 0.1 is NOT below it — for a sample of exactly 10
traces in which each segment-1 token occurs in exactly 1 of the 10 traces,
every segment is kept literal (segment 0, identical in all 10, and segment
1, at fraction exactly 0.1) and the generated templates are exactly the ten
literal source paths. -/
theorem generalizer_threshold_boundary_is_literal :
    getTopSuggestedPaths tracesC4 =
      ["/users/u0", "/users/u1", "/users/u2", "/users/u3", "/users/u4",
       "/users/u5", "/users/u6", "/users/u7", "/users/u8", "/users/u9"] := by
  decide

/-- Counterexample to claim C2, as stated: with pre-existing endpoint `P`
(path "/users/{x}", 1 parameter segment) and batch candidates
"/users/other" (candidate cand0, 0 parameter segments, fewer) and
"/users/{id}" (candidate cand1, 1 parameter segment), both overlapping `P`,
the pre-existing identity ends up in the supersede set of cand1 — the
candidate with MORE parameter segments — and not of cand0. -/
theorem tiebreak_counterexample :
    countParams "/users/other" = 0 ∧
    countParams "/users/\x7bid\x7d" = 1 ∧
    endpointP.numberParams = 1 ∧
    ((generateEndpointsMap [endpointP] ["/users/other", "/users/\x7bid\x7d"]
        "GET" "h" 2).toOption.bind (fun m => (lookupA m "cand0").map
          (fun en => en.similarEndpoints.map Prod.fst)) = some []) ∧
    ((generateEndpointsMap [endpointP] ["/users/other", "/users/\x7bid\x7d"]
        "GET" "h" 2).toOption.bind (fun m => (lookupA m "cand1").map
          (fun en => en.similarEndpoints.map Prod.fst)) = some ["P"]) := by
  decide

/-- Counterexample to claim C3, as stated: in the path-update merge
(`updateEndpointsFromMap`), a survivor with risk LOW superseding an endpoint
with risk CRITICAL ends up with risk NONE — not the maximum CRITICAL — and
its activity window is not widened (firstDetected stays 10 although the
superseded endpoint's is 1, lastActive stays 20 although the superseded
endpoint's is 30). -/
theorem merge_risk_counterexample :
    ((((updateEndpointsFromMap dbC3
          [("S", ⟨endpointS, [("Q", endpointQ)]⟩)]).endpoints.find?
        (fun e => e.uuid == "S")).map (fun e => e.riskScore)) =
      some (some RiskScore.NONE)) ∧
    riskRank (some RiskScore.NONE) < riskRank endpointQ.riskScore ∧
    ((((updateEndpointsFromMap dbC3
          [("S", ⟨endpointS, [("Q", endpointQ)]⟩)]).endpoints.find?
        (fun e => e.uuid == "S")).map
          (fun e => (e.firstDetected, e.lastActive))) = some (10, 20)) ∧
    endpointQ.firstDetected < 10 ∧ 20 < endpointQ.lastActive := by
  decide

/-- Claim C10: `logRequestBatch` processes its traces strictly in order; a
400-class failure on one trace (here: an invalid path) propagates to the
caller as that error and stops the batch, so no later trace is logged, while
the valid traces earlier in the batch remain enqueued. -/
theorem logRequestBatch_order_and_abort (env : LogEnv) (t : Nat)
    (pre : List TraceParams) (bad : TraceParams) (post : List TraceParams)
    (hq : env.queueLenOk = true)
    (hlen : env.queue.length + pre.length ≤ 1000)
    (hpre : ∀ tp ∈ pre, (getValidPath tp.path none).isValid = true)
    (hbad : (getValidPath bad.path none).isValid = false) :
    ∃ msg, logRequestBatch env t (pre ++ bad :: post) =
      (some (.badRequest msg),
        { env with queue := env.queue ++ pre.map (fun tp =>
            env.sessionFn (env.redactFn
              ⟨(getValidPath tp.path none).path, tp.method, tp.host,
                t⟩)) }) := by
  induction pre generalizing env with
  | nil =>
      refine ⟨"Invalid path " ++ bad.path ++ ": " ++
        (getValidPath bad.path none).errMsg, ?_⟩
      have hq' : ¬ (1000 < env.queue.length) := by
        simp only [List.length_nil, Nat.add_zero] at hlen
        omega
      have hstep : logRequest env bad t = .error (.badRequest
          ("Invalid path " ++ bad.path ++ ": " ++
            (getValidPath bad.path none).errMsg)) := by
        unfold logRequest logRequestTry
        simp [hq, hq', hbad, LogErr.code]
      simp only [List.nil_append, List.map_nil, List.append_nil]
      rw [logRequestBatch, hstep]
  | cons tp pre ih =>
      have hq' : ¬ (1000 < env.queue.length) := by
        simp only [List.length_cons] at hlen
        omega
      have hv : (getValidPath tp.path none).isValid = true :=
        hpre tp (by simp)
      have hstep : logRequest env tp t = .ok { env with
          queue := env.queue ++ [env.sessionFn (env.redactFn
            ⟨(getValidPath tp.path none).path, tp.method, tp.host, t⟩)] } := by
        unfold logRequest logRequestTry
        simp [hq, hq', hv]
      have hlen2 : ({ env with
          queue := env.queue ++ [env.sessionFn (env.redactFn
            ⟨(getValidPath tp.path none).path, tp.method, tp.host, t⟩)] } :
            LogEnv).queue.length + pre.length ≤ 1000 := by
        simp only [List.length_cons] at hlen
        simp only [List.length_append, List.length_cons, List.length_nil]
        omega
      obtain ⟨msg, hm⟩ := ih { env with
          queue := env.queue ++ [env.sessionFn (env.redactFn
            ⟨(getValidPath tp.path none).path, tp.method, tp.host, t⟩)] }
        hq hlen2 (fun x hx => hpre x (by simp [hx]))
      refine ⟨msg, ?_⟩
      simp only [List.cons_append, logRequestBatch, hstep]
      exact hm.trans (by simp [List.append_assoc])

/-- Witness for C10: a concrete batch of a valid trace, an invalid-path
trace and a further valid trace fails with a 400 error while only the first
trace is enqueued. -/
theorem logRequestBatch_order_and_abort_witness :
    ∃ msg, logRequestBatch envC10 3
        ([⟨"/ok/1", "GET", "h"⟩] ++ ⟨"", "GET", "h"⟩ ::
          [⟨"/ok/2", "GET", "h"⟩]) =
      (some (.badRequest msg),
        { envC10 with queue := envC10.queue ++
          [(⟨"/ok/1", "GET", "h"⟩ : TraceParams)].map (fun tp =>
            envC10.sessionFn (envC10.redactFn
              ⟨(getValidPath tp.path none).path, tp.method, tp.host,
                3⟩)) }) :=
  logRequestBatch_order_and_abort envC10 3 [⟨"/ok/1", "GET", "h"⟩]
    ⟨"", "GET", "h"⟩ [⟨"/ok/2", "GET", "h"⟩] rfl (by decide) (by decide)
    (by decide)

/-- Helper: binding a failed `Except` computation propagates the failure. -/
theorem exceptBind_error {ε α β : Type} (e : ε) (f : α → Except ε β) :
    (Except.error e >>= f) = Except.error e := rfl

/-- Helper: binding a successful `Except` computation applies the
continuation. -/
theorem exceptBind_ok {ε α β : Type} (a : α) (f : α → Except ε β) :
    (Except.ok a >>= f) = f a := rfl

/-- Helper: any error raised by the resolution step for one uploaded
operation is a Conflict — the step has no other error exit. -/
theorem processSpecEntry_error_is_conflict (db : SpecDB) (fileName : String)
    (currTime : Nat) (st : List (String × EndpointsMap) × Nat)
    (entry : SpecEntry) (e : SpecErr)
    (h : processSpecEntry db fileName currTime st entry = .error e) :
    ∃ msg, e = .conflict msg := by
  rcases hfind : findExactEndpoint db.endpoints entry.path entry.method
    entry.host with _ | ep
  · unfold processSpecEntry at h
    rw [hfind] at h
    simp at h
  · unfold processSpecEntry at h
    rw [hfind] at h
    by_cases hc : (ep.openapiSpecName.isNone ||
      (Option.map (fun s => s.isAutoGenerated)
        (ep.openapiSpecName.bind (lookupSpec db.specs))).getD false) = true
    · simp only [hc] at h
      simp at h
    · simp only [Bool.not_eq_true] at hc
      simp only [hc] at h
      simp only [Bool.false_eq_true, if_false] at h
      injection h with h2
      exact ⟨_, h2.symm⟩

/-- Helper: an uploaded operation whose exact (path, method, host) match is
owned by a non-auto-generated spec document makes the resolution step raise
a Conflict. -/
theorem processSpecEntry_conflict (db : SpecDB) (fileName : String)
    (currTime : Nat) (st : List (String × EndpointsMap) × Nat)
    (entry : SpecEntry) (ep : ApiEndpoint) (s : String) (sp : OpenApiSpecRec)
    (hfind : findExactEndpoint db.endpoints entry.path entry.method
      entry.host = some ep)
    (hname : ep.openapiSpecName = some s)
    (hsp : lookupSpec db.specs s = some sp)
    (hauto : sp.isAutoGenerated = false) :
    ∃ msg, processSpecEntry db fileName currTime st entry =
      .error (.conflict msg) := by
  refine ⟨"Path " ++ ep.path ++
    " defined in the given new spec file is already defined in another user defined spec file: " ++
    (ep.openapiSpecName.getD ""), ?_⟩
  unfold processSpecEntry
  rw [hfind]
  simp [hname, hsp, hauto]

/-- Helper: when some uploaded operation satisfies the conflict condition,
the whole resolution loop fails with a Conflict, from any starting state. -/
theorem foldlM_processSpecEntry_conflict (db : SpecDB) (fileName : String)
    (currTime : Nat) :
    ∀ (entries : List SpecEntry) (st : List (String × EndpointsMap) × Nat),
      (∃ entry ∈ entries, ∃ ep s sp,
        findExactEndpoint db.endpoints entry.path entry.method entry.host =
          some ep ∧
        ep.openapiSpecName = some s ∧ lookupSpec db.specs s = some sp ∧
        sp.isAutoGenerated = false) →
      ∃ msg, entries.foldlM (processSpecEntry db fileName currTime) st =
        .error (.conflict msg) := by
  intro entries
  induction entries with
  | nil => intro st h; simp at h
  | cons a l ih =>
      intro st h
      rcases h with ⟨entry, hmem, hcond⟩
      rcases List.mem_cons.mp hmem with heq | hmem2
      · subst heq
        rcases hcond with ⟨ep, s, sp, hfind, hname, hsp, hauto⟩
        obtain ⟨msg, hmsg⟩ := processSpecEntry_conflict db fileName currTime
          st entry ep s sp hfind hname hsp hauto
        refine ⟨msg, ?_⟩
        simp [List.foldlM_cons, hmsg, exceptBind_error]
      · rcases hstep : processSpecEntry db fileName currTime st a with e | st2
        · obtain ⟨msg, hmsg⟩ := processSpecEntry_error_is_conflict db
            fileName currTime st a e hstep
          refine ⟨msg, ?_⟩
          simp [List.foldlM_cons, hstep, hmsg, exceptBind_error]
        · obtain ⟨msg, hmsg⟩ := ih st2 ⟨entry, hmem2, hcond⟩
          refine ⟨msg, ?_⟩
          simp [List.foldlM_cons, hstep, hmsg, exceptBind_ok]

/-- Claim C1: for every spec upload batch, if some uploaded operation's
exact (host, method, path) endpoint already exists and is owned by a
different non-auto-generated spec document, `uploadNewSpec` raises a
Conflict error and makes zero persistent changes: the returned database —
endpoints, specs, traces, data fields, alerts and aggregates alike — is the
input database. -/
theorem uploadNewSpec_conflict_no_change (db : SpecDB)
    (fileName specString : String) (currTime : Nat)
    (entries : List SpecEntry) (entry : SpecEntry) (ep : ApiEndpoint)
    (s : String) (sp : OpenApiSpecRec)
    (hentry : entry ∈ entries)
    (hfind : findExactEndpoint db.endpoints entry.path entry.method
      entry.host = some ep)
    (hname : ep.openapiSpecName = some s)
    (_hdiff : s ≠ fileName)
    (hsp : lookupSpec db.specs s = some sp)
    (hauto : sp.isAutoGenerated = false) :
    ∃ msg, uploadNewSpec db fileName specString currTime entries =
      (some (.conflict msg), db) := by
  obtain ⟨msg, hmsg⟩ := foldlM_processSpecEntry_conflict db fileName currTime
    entries ([], 0) ⟨entry, hentry, ep, s, sp, hfind, hname, hsp, hauto⟩
  refine ⟨msg, ?_⟩
  unfold uploadNewSpec
  rw [hmsg]

/-- Witness for C1: uploading a spec declaring `GET h /orders/{id}` while
that endpoint is owned by the user-defined document "other-spec" raises a
Conflict and leaves the database untouched. -/
theorem uploadNewSpec_conflict_no_change_witness :
    ∃ msg, uploadNewSpec dbC1 "new-spec" "contents" 5 [entryC1] =
      (some (.conflict msg), dbC1) :=
  uploadNewSpec_conflict_no_change dbC1 "new-spec" "contents" 5 [entryC1]
    entryC1 endpointOwned "other-spec" specOther (by decide) (by decide)
    (by decide) (by decide) (by decide) (by decide)

/-- Helper: the risk score after one merge step is the superseded
endpoint's when the survivor has none or ranks strictly lower, and the
survivor's otherwise. -/
theorem mergeAttrsStep_riskScore_eq (acc e : ApiEndpoint) :
    (mergeAttrsStep acc e).riskScore =
      if (acc.riskScore.isNone || riskLtB acc.riskScore e.riskScore) = true
      then e.riskScore else acc.riskScore := by
  unfold mergeAttrsStep updateDates
  by_cases hc : (acc.riskScore.isNone ||
      riskLtB acc.riskScore e.riskScore) = true <;>
    simp [hc]

/-- Helper: one merge step keeps one of the two risk scores and never
decreases the rank below either. -/
theorem mergeAttrsStep_rank (acc e : ApiEndpoint) :
    ((mergeAttrsStep acc e).riskScore = acc.riskScore ∨
      (mergeAttrsStep acc e).riskScore = e.riskScore) ∧
    riskRank acc.riskScore ≤ riskRank (mergeAttrsStep acc e).riskScore ∧
    riskRank e.riskScore ≤ riskRank (mergeAttrsStep acc e).riskScore := by
  rw [mergeAttrsStep_riskScore_eq]
  by_cases hc : (acc.riskScore.isNone ||
      riskLtB acc.riskScore e.riskScore) = true
  · rw [if_pos hc]
    refine ⟨Or.inr rfl, ?_, le_refl _⟩
    rcases ha : acc.riskScore with _ | a
    · simp [riskRank]
    · rcases he : e.riskScore with _ | b
      · rw [ha, he] at hc
        simp [riskLtB] at hc
      · rw [ha, he] at hc
        simp only [Option.isNone_some, Bool.false_or, riskLtB,
          decide_eq_true_eq] at hc
        simp only [riskRank]
        omega
  · rw [if_neg hc]
    refine ⟨Or.inl rfl, le_refl _, ?_⟩
    rw [Bool.not_eq_true, Bool.or_eq_false_iff] at hc
    rcases hc with ⟨hc1, hc2⟩
    rcases ha : acc.riskScore with _ | a
    · rw [ha] at hc1
      simp at hc1
    · rcases he : e.riskScore with _ | b
      · simp [riskRank]
      · rw [ha, he] at hc2
        simp only [riskLtB, decide_eq_false_iff_not] at hc2
        simp only [riskRank]
        omega

/-- Helper: one merge step takes the minimum `firstDetected`, provided the
superseded endpoint's window is well-formed. -/
theorem mergeAttrsStep_firstDetected (acc e : ApiEndpoint)
    (h : e.firstDetected ≤ e.lastActive) :
    (mergeAttrsStep acc e).firstDetected =
      min acc.firstDetected e.firstDetected := by
  unfold mergeAttrsStep updateDates
  by_cases hc : (acc.riskScore.isNone ||
      riskLtB acc.riskScore e.riskScore) = true <;>
    simp [hc] <;> omega

/-- Helper: one merge step takes the maximum `lastActive`, provided the
superseded endpoint's window is well-formed. -/
theorem mergeAttrsStep_lastActive (acc e : ApiEndpoint)
    (h : e.firstDetected ≤ e.lastActive) :
    (mergeAttrsStep acc e).lastActive = max acc.lastActive e.lastActive := by
  unfold mergeAttrsStep updateDates
  by_cases hc : (acc.riskScore.isNone ||
      riskLtB acc.riskScore e.riskScore) = true <;>
    simp [hc] <;> omega

/-- Helper: the merge loop ends with a risk score drawn from the merged set
whose rank dominates every member — i.e. the maximum under the stored
order. -/
theorem mergeSimilar_risk_max :
    ∀ (sims : List ApiEndpoint) (survivor : ApiEndpoint),
      (mergeSimilar survivor sims).riskScore ∈
        survivor.riskScore :: sims.map (fun e => e.riskScore) ∧
      ∀ r ∈ survivor.riskScore :: sims.map (fun e => e.riskScore),
        riskRank r ≤ riskRank (mergeSimilar survivor sims).riskScore := by
  intro sims
  induction sims with
  | nil =>
      intro survivor
      constructor
      · simp [mergeSimilar]
      · intro r hr
        simp only [List.map_nil] at hr
        rw [List.mem_singleton.mp hr]
        exact le_refl _
  | cons e rest ih =>
      intro survivor
      have hstep := mergeAttrsStep_rank survivor e
      have hrec := ih (mergeAttrsStep survivor e)
      have hms : mergeSimilar survivor (e :: rest) =
          mergeSimilar (mergeAttrsStep survivor e) rest := rfl
      rw [hms]
      simp only [List.map_cons]
      constructor
      · rcases List.mem_cons.mp hrec.1 with hin | hin
        · rcases hstep.1 with hE | hE
          · rw [hin, hE]
            exact List.mem_cons_self _ _
          · rw [hin, hE]
            exact List.mem_cons_of_mem _ (List.mem_cons_self _ _)
        · exact List.mem_cons_of_mem _ (List.mem_cons_of_mem _ hin)
      · intro r hr
        have hhead : riskRank (mergeAttrsStep survivor e).riskScore ≤
            riskRank (mergeSimilar (mergeAttrsStep survivor e) rest).riskScore :=
          hrec.2 _ (List.mem_cons_self _ _)
        rcases List.mem_cons.mp hr with h1 | h1
        · rw [h1]
          exact le_trans hstep.2.1 hhead
        · rcases List.mem_cons.mp h1 with h2 | h2
          · rw [h2]
            exact le_trans hstep.2.2 hhead
          · exact hrec.2 r (List.mem_cons_of_mem _ h2)

/-- Helper: the merge loop ends with the minimum `firstDetected` of the
merged set. -/
theorem mergeSimilar_firstDetected_min :
    ∀ (sims : List ApiEndpoint) (survivor : ApiEndpoint),
      (∀ x ∈ sims, x.firstDetected ≤ x.lastActive) →
      (mergeSimilar survivor sims).firstDetected ∈
        survivor.firstDetected :: sims.map (fun e => e.firstDetected) ∧
      ∀ d ∈ survivor.firstDetected :: sims.map (fun e => e.firstDetected),
        (mergeSimilar survivor sims).firstDetected ≤ d := by
  intro sims
  induction sims with
  | nil =>
      intro survivor _
      constructor
      · simp [mergeSimilar]
      · intro d hd
        simp only [List.map_nil] at hd
        rw [List.mem_singleton.mp hd]
        exact le_refl _
  | cons e rest ih =>
      intro survivor hw
      have hstep := mergeAttrsStep_firstDetected survivor e
        (hw e (List.mem_cons_self _ _))
      have hrec := ih (mergeAttrsStep survivor e)
        (fun x hx => hw x (List.mem_cons_of_mem _ hx))
      have hms : mergeSimilar survivor (e :: rest) =
          mergeSimilar (mergeAttrsStep survivor e) rest := rfl
      rw [hms]
      simp only [List.map_cons]
      constructor
      · rcases List.mem_cons.mp hrec.1 with hin | hin
        · rw [hin, hstep]
          rcases min_choice survivor.firstDetected e.firstDetected with
            hm | hm <;> rw [hm]
          · exact List.mem_cons_self _ _
          · exact List.mem_cons_of_mem _ (List.mem_cons_self _ _)
        · exact List.mem_cons_of_mem _ (List.mem_cons_of_mem _ hin)
      · intro d hd
        have hhead : (mergeSimilar (mergeAttrsStep survivor e)
              rest).firstDetected ≤ (mergeAttrsStep survivor e).firstDetected :=
          hrec.2 _ (List.mem_cons_self _ _)
        rcases List.mem_cons.mp hd with h1 | h1
        · rw [h1]
          refine le_trans hhead ?_
          rw [hstep]
          exact min_le_left _ _
        · rcases List.mem_cons.mp h1 with h2 | h2
          · rw [h2]
            refine le_trans hhead ?_
            rw [hstep]
            exact min_le_right _ _
          · exact hrec.2 d (List.mem_cons_of_mem _ h2)

/-- Helper: the merge loop ends with the maximum `lastActive` of the merged
set. -/
theorem mergeSimilar_lastActive_max :
    ∀ (sims : List ApiEndpoint) (survivor : ApiEndpoint),
      (∀ x ∈ sims, x.firstDetected ≤ x.lastActive) →
      (mergeSimilar survivor sims).lastActive ∈
        survivor.lastActive :: sims.map (fun e => e.lastActive) ∧
      ∀ d ∈ survivor.lastActive :: sims.map (fun e => e.lastActive),
        d ≤ (mergeSimilar survivor sims).lastActive := by
  intro sims
  induction sims with
  | nil =>
      intro survivor _
      constructor
      · simp [mergeSimilar]
      · intro d hd
        simp only [List.map_nil] at hd
        rw [List.mem_singleton.mp hd]
        exact le_refl _
  | cons e rest ih =>
      intro survivor hw
      have hstep := mergeAttrsStep_lastActive survivor e
        (hw e (List.mem_cons_self _ _))
      have hrec := ih (mergeAttrsStep survivor e)
        (fun x hx => hw x (List.mem_cons_of_mem _ hx))
      have hms : mergeSimilar survivor (e :: rest) =
          mergeSimilar (mergeAttrsStep survivor e) rest := rfl
      rw [hms]
      simp only [List.map_cons]
      constructor
      · rcases List.mem_cons.mp hrec.1 with hin | hin
        · rw [hin, hstep]
          rcases max_choice survivor.lastActive e.lastActive with
            hm | hm <;> rw [hm]
          · exact List.mem_cons_self _ _
          · exact List.mem_cons_of_mem _ (List.mem_cons_self _ _)
        · exact List.mem_cons_of_mem _ (List.mem_cons_of_mem _ hin)
      · intro d hd
        have hhead : (mergeAttrsStep survivor e).lastActive ≤
            (mergeSimilar (mergeAttrsStep survivor e) rest).lastActive :=
          hrec.2 _ (List.mem_cons_self _ _)
        rcases List.mem_cons.mp hd with h1 | h1
        · rw [h1]
          refine le_trans ?_ hhead
          rw [hstep]
          exact le_max_left _ _
        · rcases List.mem_cons.mp h1 with h2 | h2
          · rw [h2]
            refine le_trans ?_ hhead
            rw [hstep]
            exact le_max_right _ _
          · exact hrec.2 d (List.mem_cons_of_mem _ h2)

/-- Claim C3 (amended): in the spec-upload merge, for every surviving
identity — here with a well-formed activity window on each superseded
identity and risk scores present, as the claim presupposes — the merged
attributes computed by `mergeSimilar` (used by `uploadNewSpec`'s write
phase via `applyMergeItem`) are: a risk score drawn from its own and the
superseded scores whose rank dominates all of them (the maximum under
NONE < LOW < MEDIUM < HIGH < CRITICAL), the minimum `firstDetected`, and
the maximum `lastActive`. In the manual path-update merge
(`updateEndpointsFromMap`) this fails: the survivor's risk score is reset
to NONE and its window is not widened. -/
theorem mergeSimilar_inherits_max_risk_and_widened_window
    (survivor : ApiEndpoint) (sims : List ApiEndpoint)
    (_hne : sims ≠ [])
    (_hrisk : survivor.riskScore.isSome = true)
    (_hall : ∀ e ∈ sims, e.riskScore.isSome = true)
    (hdates : ∀ e ∈ sims, e.firstDetected ≤ e.lastActive) :
    ((mergeSimilar survivor sims).riskScore ∈
        survivor.riskScore :: sims.map (fun e => e.riskScore) ∧
      ∀ r ∈ survivor.riskScore :: sims.map (fun e => e.riskScore),
        riskRank r ≤ riskRank (mergeSimilar survivor sims).riskScore) ∧
    ((mergeSimilar survivor sims).firstDetected ∈
        survivor.firstDetected :: sims.map (fun e => e.firstDetected) ∧
      ∀ d ∈ survivor.firstDetected :: sims.map (fun e => e.firstDetected),
        (mergeSimilar survivor sims).firstDetected ≤ d) ∧
    ((mergeSimilar survivor sims).lastActive ∈
        survivor.lastActive :: sims.map (fun e => e.lastActive) ∧
      ∀ d ∈ survivor.lastActive :: sims.map (fun e => e.lastActive),
        d ≤ (mergeSimilar survivor sims).lastActive) :=
  ⟨mergeSimilar_risk_max sims survivor,
   mergeSimilar_firstDetected_min sims survivor hdates,
   mergeSimilar_lastActive_max sims survivor hdates⟩

/-- Witness for the amended C3: merging `endpointS` (LOW, window 10-20)
with superseded `endpointQ` (CRITICAL, window 1-30) yields risk CRITICAL
and window 1-30. -/
theorem mergeSimilar_inherits_witness :
    ((mergeSimilar endpointS [endpointQ]).riskScore ∈
        endpointS.riskScore :: [endpointQ].map (fun e => e.riskScore) ∧
      ∀ r ∈ endpointS.riskScore :: [endpointQ].map (fun e => e.riskScore),
        riskRank r ≤ riskRank (mergeSimilar endpointS [endpointQ]).riskScore) ∧
    ((mergeSimilar endpointS [endpointQ]).firstDetected ∈
        endpointS.firstDetected :: [endpointQ].map (fun e => e.firstDetected) ∧
      ∀ d ∈ endpointS.firstDetected ::
          [endpointQ].map (fun e => e.firstDetected),
        (mergeSimilar endpointS [endpointQ]).firstDetected ≤ d) ∧
    ((mergeSimilar endpointS [endpointQ]).lastActive ∈
        endpointS.lastActive :: [endpointQ].map (fun e => e.lastActive) ∧
      ∀ d ∈ endpointS.lastActive :: [endpointQ].map (fun e => e.lastActive),
        d ≤ (mergeSimilar endpointS [endpointQ]).lastActive) :=
  mergeSimilar_inherits_max_risk_and_widened_window endpointS [endpointQ]
    (by decide) (by decide) (by decide) (by decide)

/-- Claim C2 (amended): during one resolution batch, when a recorded
candidate `c1` already holds pre-existing identity `item` and a later
candidate `c2` also overlaps `item`, the later candidate steals `item` —
so `item` ends in `c2`'s supersede set and leaves `c1`'s — iff `c2`'s
parameter count equals `item`'s, or `c1`'s parameter count differs from
`item`'s and `c2` has strictly fewer parameters than `c1`; otherwise the
recorded candidate `c1` keeps `item`. -/
theorem processSimilar_tiebreak (c1 c2 item : ApiEndpoint)
    (h12 : c1.uuid ≠ c2.uuid) (h1P : item.uuid ≠ c1.uuid)
    (h2P : item.uuid ≠ c2.uuid) :
    ((lookupA (processSimilar
        [(c1.uuid, ⟨c1, [(item.uuid, item)]⟩), (c2.uuid, ⟨c2, []⟩)]
        c2 [item]) c2.uuid).map
      (fun en => en.similarEndpoints.map Prod.fst) =
        some (if stealCond c2 item c1 then [item.uuid] else [])) ∧
    ((lookupA (processSimilar
        [(c1.uuid, ⟨c1, [(item.uuid, item)]⟩), (c2.uuid, ⟨c2, []⟩)]
        c2 [item]) c1.uuid).map
      (fun en => en.similarEndpoints.map Prod.fst) =
        some (if stealCond c2 item c1 then [] else [item.uuid])) := by
  by_cases hs : stealCond c2 item c1
  · have hs' : c2.numberParams = item.numberParams ∨
        (c1.numberParams ≠ item.numberParams ∧
          c2.numberParams < c1.numberParams) := hs
    simp only [if_pos hs]
    constructor
    · simp [processSimilar, scanForItem, addSimilar, lookupA, setA, eraseA,
        Ne.symm h12, Ne.symm h1P, Ne.symm h2P, h12, h1P, h2P, hs']
    · simp [processSimilar, scanForItem, addSimilar, lookupA, setA, eraseA,
        Ne.symm h12, Ne.symm h1P, Ne.symm h2P, h12, h1P, h2P, hs']
  · have hs' : ¬ (c2.numberParams = item.numberParams ∨
        (c1.numberParams ≠ item.numberParams ∧
          c2.numberParams < c1.numberParams)) := hs
    simp only [if_neg hs]
    constructor
    · simp [processSimilar, scanForItem, addSimilar, lookupA, setA, eraseA,
        Ne.symm h12, Ne.symm h1P, Ne.symm h2P, h12, h1P, h2P, hs']
    · simp [processSimilar, scanForItem, addSimilar, lookupA, setA, eraseA,
        Ne.symm h12, Ne.symm h1P, Ne.symm h2P, h12, h1P, h2P, hs']

/-- Witness for the amended C2: with recorded candidate `candW1` (2
parameters), later candidate `candW2` (1 parameter) and pre-existing
endpoint `itemW` (1 parameter), the steal condition holds and `itemW` moves
to `candW2`'s supersede set. -/
theorem processSimilar_tiebreak_witness :
    ((lookupA (processSimilar
        [(candW1.uuid, ⟨candW1, [(itemW.uuid, itemW)]⟩),
         (candW2.uuid, ⟨candW2, []⟩)]
        candW2 [itemW]) candW2.uuid).map
      (fun en => en.similarEndpoints.map Prod.fst) =
        some (if stealCond candW2 itemW candW1 then [itemW.uuid] else [])) ∧
    ((lookupA (processSimilar
        [(candW1.uuid, ⟨candW1, [(itemW.uuid, itemW)]⟩),
         (candW2.uuid, ⟨candW2, []⟩)]
        candW2 [itemW]) candW1.uuid).map
      (fun en => en.similarEndpoints.map Prod.fst) =
        some (if stealCond candW2 itemW candW1 then [] else [itemW.uuid])) :=
  processSimilar_tiebreak candW1 candW2 itemW (by decide) (by decide)
    (by decide)

/-- Helper: the counter fold leaves positions below the running index
unchanged. -/
theorem bumpTokens_lt (toks : List String) :
    ∀ (cm : Nat → String → Nat) (i pos : Nat) (tok : String), pos < i →
      bumpTokens cm i toks pos tok = cm pos tok := by
  induction toks with
  | nil => intro cm i pos tok _; rfl
  | cons t rest ih =>
      intro cm i pos tok h
      show bumpTokens (bump cm i t) (i + 1) rest pos tok = cm pos tok
      rw [ih (bump cm i t) (i + 1) pos tok (by omega)]
      have hne : pos ≠ i := Nat.ne_of_lt h
      simp [bump, hne]

/-- Helper: the counter fold adds one at position `i + j` for the token
found at offset `j` of the walked list. -/
theorem bumpTokens_get (toks : List String) :
    ∀ (cm : Nat → String → Nat) (i j : Nat) (tok : String),
      bumpTokens cm i toks (i + j) tok =
        cm (i + j) tok + (if toks[j]? = some tok then 1 else 0) := by
  induction toks with
  | nil =>
      intro cm i j tok
      simp [bumpTokens]
  | cons t rest ih =>
      intro cm i j tok
      show bumpTokens (bump cm i t) (i + 1) rest (i + j) tok = _
      cases j with
      | zero =>
          rw [bumpTokens_lt rest (bump cm i t) (i + 1) (i + 0) tok (by omega)]
          simp only [List.getElem?_cons_zero, Nat.add_zero]
          by_cases h : tok = t
          · simp [bump, h]
          · simp [bump, h]
            intro h2
            exact absurd h2.symm h
      | succ jj =>
          rw [show i + (jj + 1) = (i + 1) + jj from by omega,
            ih (bump cm i t) (i + 1) jj tok]
          simp only [List.getElem?_cons_succ]
          have hne : i + 1 + jj ≠ i := by omega
          simp [bump, hne]

/-- Helper: the counter map counts, for each (position, token) pair, the
sampled traces holding that token at that position. -/
theorem getCounterMap_foldl (traces : List ApiTraceRec) :
    ∀ (cm0 : Nat → String → Nat) (pos : Nat) (tok : String),
      (traces.foldl (fun cm trace =>
        bumpTokens cm 0 (getPathTokens trace.path)) cm0) pos tok =
      cm0 pos tok + traces.countP
        (fun t => (getPathTokens t.path)[pos]? == some tok) := by
  induction traces with
  | nil => intro cm0 pos tok; simp
  | cons t rest ih =>
      intro cm0 pos tok
      simp only [List.foldl_cons]
      rw [ih]
      have h0 := bumpTokens_get (getPathTokens t.path) cm0 0 pos tok
      rw [show (0 : Nat) + pos = pos from by omega] at h0
      rw [h0, List.countP_cons]
      by_cases hp : (getPathTokens t.path)[pos]? = some tok
      · simp [hp]
        omega
      · simp [hp]

/-- Helper: closed form of `getCounterMap`. -/
theorem getCounterMap_eq (traces : List ApiTraceRec) (pos : Nat)
    (tok : String) :
    getCounterMap traces pos tok = traces.countP
      (fun t => (getPathTokens t.path)[pos]? == some tok) := by
  unfold getCounterMap
  rw [getCounterMap_foldl]
  omega

/-- Helper: counting over a constant sample. -/
theorem countP_replicate {α : Type} (n : Nat) (a : α) (p : α → Bool) :
    (List.replicate n a).countP p = if p a then n else 0 := by
  induction n with
  | zero => simp
  | succ m ih =>
      rw [List.replicate_succ, List.countP_cons, ih]
      by_cases hp : p a = true
      · simp [hp]
      · simp [hp]

/-- Helper: when every walked token has occurrence fraction 1, the segment
walk keeps each token literal, appends them to the accumulated string and
adds 1 per token to the accumulated total. -/
theorem genTokens_literal (cm : Nat → String → Nat) (N : ℚ) :
    ∀ (toks : List String) (i : Nat) (s : String) (q : ℚ) (pn : Nat),
      (∀ j tok, toks[j]? = some tok → (cm (i + j) tok : ℚ) / N = 1) →
      genTokens cm N i (s, q, pn) toks =
        (rebuildPath s toks, q + toks.length, pn) := by
  intro toks
  induction toks with
  | nil =>
      intro i s q pn _
      simp [genTokens, rebuildPath]
  | cons t rest ih =>
      intro i s q pn h
      have h0 : (cm i t : ℚ) / N = 1 := by
        have := h 0 t (by simp)
        simpa using this
      show genTokens cm N (i + 1) (genStep cm N i t (s, q, pn)) rest = _
      have hstep : genStep cm N i t (s, q, pn) = (s ++ "/" ++ t, q + 1, pn) := by
        unfold genStep
        simp only [h0]
        norm_num [THRESHOLD]
      rw [hstep, ih (i + 1) _ _ _ (fun j tok hj => by
        have := h (j + 1) tok (by simpa using hj)
        rwa [show i + (j + 1) = i + 1 + j from by omega] at this)]
      simp only [Prod.mk.injEq, rebuildPath, List.foldl_cons,
        List.length_cons, true_and, and_true]
      push_cast
      ring

/-- Claim C5: for every non-empty sample consisting of N identical literal
(canonical) paths, the generalizer proposes exactly that path, unchanged,
with confidence 1.0: the distinct-template map is [(path, 1)] and the output
list is [path]. -/
theorem generalizer_identical_paths (N : Nat) (tp : ApiTraceRec)
    (hN : 0 < N) (hne : getPathTokens tp.path ≠ [])
    (hcanon : rebuildPath "" (getPathTokens tp.path) = tp.path) :
    distinctPathsOf (List.replicate N tp) = [(tp.path, 1)] ∧
    getTopSuggestedPaths (List.replicate N tp) = [tp.path] := by
  have hNq : ((N : ℚ)) ≠ 0 := Nat.cast_ne_zero.mpr (by omega)
  have hcm : ∀ j tok, (getPathTokens tp.path)[j]? = some tok →
      getCounterMap (List.replicate N tp) j tok = N := by
    intro j tok hj
    rw [getCounterMap_eq, countP_replicate]
    simp [hj]
  have hfrac : ∀ j tok, (getPathTokens tp.path)[j]? = some tok →
      ((getCounterMap (List.replicate N tp) (0 + j) tok : ℚ) / (N : ℚ)) = 1 := by
    intro j tok hj
    rw [show (0 : Nat) + j = j from by omega, hcm j tok hj]
    field_simp
  have hgen := genTokens_literal (getCounterMap (List.replicate N tp))
    (N : ℚ) (getPathTokens tp.path) 0 "" 0 1 hfrac
  have htmpl : templateOf (getCounterMap (List.replicate N tp)) (N : ℚ)
      tp.path = tp.path := by
    unfold templateOf
    rw [hgen]
    exact hcanon
  have hlenq : ((getPathTokens tp.path).length : ℚ) ≠ 0 := by
    have : (getPathTokens tp.path).length ≠ 0 := by
      intro h
      exact hne (List.length_eq_zero.mp h)
    exact Nat.cast_ne_zero.mpr this
  have havg : avgOf (getCounterMap (List.replicate N tp)) (N : ℚ)
      tp.path = 1 := by
    unfold avgOf
    rw [hgen]
    simp only [zero_add]
    field_simp
  have hone : insertMaxStep [(tp.path, 1)]
      (templateOf (getCounterMap (List.replicate N tp)) (N : ℚ) tp.path)
      (avgOf (getCounterMap (List.replicate N tp)) (N : ℚ) tp.path) =
      [(tp.path, 1)] := by
    rw [htmpl, havg]
    simp [insertMaxStep, lookupA]
  have hfold : ∀ k, (List.replicate k tp).foldl
      (fun dp t => insertMaxStep dp
        (templateOf (getCounterMap (List.replicate N tp)) (N : ℚ) t.path)
        (avgOf (getCounterMap (List.replicate N tp)) (N : ℚ) t.path))
      [(tp.path, 1)] = [(tp.path, 1)] := by
    intro k
    induction k with
    | zero => rfl
    | succ kk ihk =>
        rw [List.replicate_succ, List.foldl_cons, hone, ihk]
  obtain ⟨m, rfl⟩ : ∃ m, N = m + 1 := ⟨N - 1, by omega⟩
  have hfirst : insertMaxStep []
      (templateOf (getCounterMap (List.replicate (m + 1) tp))
        ((m + 1 : Nat) : ℚ) tp.path)
      (avgOf (getCounterMap (List.replicate (m + 1) tp))
        ((m + 1 : Nat) : ℚ) tp.path) = [(tp.path, 1)] := by
    rw [htmpl, havg]
    simp [insertMaxStep, lookupA]
  have hdp : distinctPathsOf (List.replicate (m + 1) tp) = [(tp.path, 1)] := by
    unfold distinctPathsOf getDistinctPaths
    rw [List.length_replicate]
    refine Eq.trans ?_ (hfold m)
    rw [← hfirst]
    rfl
  refine ⟨hdp, ?_⟩
  unfold getTopSuggestedPaths
  rw [hdp]
  rfl

/-- Witness for C5: three identical traces of path "/users/123" yield the
distinct-template map [("/users/123", 1)] and the single suggestion
"/users/123". -/
theorem generalizer_identical_paths_witness :
    distinctPathsOf (List.replicate 3 (⟨"t1", "e", "/users/123"⟩ :
        ApiTraceRec)) = [("/users/123", 1)] ∧
    getTopSuggestedPaths (List.replicate 3 (⟨"t1", "e", "/users/123"⟩ :
        ApiTraceRec)) = ["/users/123"] :=
  generalizer_identical_paths 3 ⟨"t1", "e", "/users/123"⟩ (by decide)
    (by decide) (by decide)

/-- Helper: one-step unfolding of the association-list lookup. -/
theorem lookupA_cons {α : Type} (kv : String × α) (rest : List (String × α))
    (k : String) :
    lookupA (kv :: rest) k =
      if kv.1 == k then some kv.2 else lookupA rest k := by
  unfold lookupA
  by_cases h : (kv.1 == k) = true <;> simp [List.find?_cons, h]

/-- Helper: appending a fresh key does not disturb other lookups. -/
theorem lookupA_append_single_ne {α : Type} :
    ∀ (m : List (String × α)) (k p : String) (v : α), k ≠ p →
      lookupA (m ++ [(p, v)]) k = lookupA m k := by
  intro m
  induction m with
  | nil =>
      intro k p v h
      simp only [List.nil_append, lookupA_cons]
      have : (p == k) = false := by
        simp [Ne.symm h]
      simp [this, lookupA]
  | cons kv rest ih =>
      intro k p v h
      simp only [List.cons_append, lookupA_cons]
      rw [ih _ _ _ h]

/-- Helper: appending an absent key makes its lookup find the new value. -/
theorem lookupA_append_single_self {α : Type} :
    ∀ (m : List (String × α)) (p : String) (v : α), lookupA m p = none →
      lookupA (m ++ [(p, v)]) p = some v := by
  intro m
  induction m with
  | nil =>
      intro p v _
      simp [lookupA_cons]
  | cons kv rest ih =>
      intro p v h
      rw [lookupA_cons] at h
      by_cases hk : (kv.1 == p) = true
      · rw [if_pos hk] at h
        simp at h
      · rw [if_neg hk] at h
        simp only [List.cons_append, lookupA_cons, if_neg hk]
        exact ih _ _ h

/-- Helper: the write reaches the written key. -/
theorem lookupA_setA_self {α : Type} :
    ∀ (m : List (String × α)) (k : String) (v : α),
      lookupA (setA m k v) k = some v := by
  intro m
  induction m with
  | nil => intro k v; simp [setA, lookupA_cons]
  | cons kv rest ih =>
      intro k v
      unfold setA
      by_cases hk : (kv.1 == k) = true
      · rw [if_pos hk]
        simp [lookupA_cons]
      · rw [if_neg hk]
        rw [lookupA_cons, if_neg hk]
        exact ih _ _

/-- Helper: the write leaves other keys untouched. -/
theorem lookupA_setA_ne {α : Type} :
    ∀ (m : List (String × α)) (p k : String) (v : α), k ≠ p →
      lookupA (setA m p v) k = lookupA m k := by
  intro m
  induction m with
  | nil =>
      intro p k v h
      simp only [setA, lookupA_cons]
      have : (p == k) = false := by simp [Ne.symm h]
      simp [this, lookupA]
  | cons kv rest ih =>
      intro p k v h
      unfold setA
      by_cases hk : (kv.1 == p) = true
      · rw [if_pos hk]
        have hkv : kv.1 = p := by simpa using hk
        have h1 : (p == k) = false := by simp [Ne.symm h]
        have h2 : (kv.1 == k) = false := by simp [hkv, Ne.symm h]
        rw [lookupA_cons, lookupA_cons]
        simp [h1, h2]
      · rw [if_neg hk]
        rw [lookupA_cons, lookupA_cons]
        by_cases h2 : (kv.1 == k) = true
        · simp [h2]
        · simp only [h2, Bool.false_eq_true, if_false]
          exact ih _ _ _ h

/-- Helper: the per-template update leaves other keys untouched. -/
theorem lookupA_insertMaxStep_ne (dp : List (String × ℚ)) (path : String)
    (avg : ℚ) (k : String) (h : k ≠ path) :
    lookupA (insertMaxStep dp path avg) k = lookupA dp k := by
  unfold insertMaxStep
  rcases hl : lookupA dp path with _ | v
  · exact lookupA_append_single_ne dp k path avg h
  · dsimp only
    by_cases hc : v = 0 ∨ avg > v
    · rw [if_pos hc]
      exact lookupA_setA_ne dp path k avg h
    · rw [if_neg hc]

/-- Helper: the per-template update stores the running maximum at its own
key. -/
theorem lookupA_insertMaxStep_self (dp : List (String × ℚ)) (path : String)
    (avg : ℚ) :
    lookupA (insertMaxStep dp path avg) path =
      some (match lookupA dp path with
        | none => avg
        | some v => if v = 0 ∨ avg > v then avg else v) := by
  unfold insertMaxStep
  rcases hl : lookupA dp path with _ | v
  · exact lookupA_append_single_self dp path avg hl
  · dsimp only
    by_cases hc : v = 0 ∨ avg > v
    · rw [if_pos hc, if_pos hc]
      exact lookupA_setA_self dp path avg
    · rw [if_neg hc, if_neg hc]
      exact hl

/-- Helper: the per-template update never removes a key. -/
theorem isSome_lookupA_insertMaxStep (dp : List (String × ℚ))
    (path : String) (avg : ℚ) (k : String)
    (h : (lookupA dp k).isSome = true) :
    (lookupA (insertMaxStep dp path avg) k).isSome = true := by
  by_cases hk : k = path
  · subst hk
    rw [lookupA_insertMaxStep_self]
    rfl
  · rw [lookupA_insertMaxStep_ne dp path avg k hk]
    exact h

/-- Helper: the accumulated total of the segment walk never decreases. -/
theorem genStep_total (cm : Nat → String → Nat) (N : ℚ) (i : Nat)
    (tok : String) (st : String × ℚ × Nat) :
    (genStep cm N i tok st).2.1 = st.2.1 + (cm i tok : ℚ) / N := by
  unfold genStep
  by_cases h : ((cm i tok : ℚ) / N < THRESHOLD) <;> simp [h]

/-- Helper: the segment walk only adds nonnegative fractions to the
total. -/
theorem genTokens_total_ge (cm : Nat → String → Nat) (N : ℚ) (hN : 0 ≤ N) :
    ∀ (toks : List String) (i : Nat) (st : String × ℚ × Nat),
      st.2.1 ≤ (genTokens cm N i st toks).2.1 := by
  intro toks
  induction toks with
  | nil => intro i st; exact le_refl _
  | cons t rest ih =>
      intro i st
      show st.2.1 ≤ (genTokens cm N (i + 1) (genStep cm N i t st) rest).2.1
      refine le_trans ?_ (ih (i + 1) (genStep cm N i t st))
      rw [genStep_total]
      have hf : (0 : ℚ) ≤ (cm i t : ℚ) / N :=
        div_nonneg (Nat.cast_nonneg _) hN
      linarith

/-- Helper: every per-source-path confidence is nonnegative. -/
theorem avgOf_nonneg (cm : Nat → String → Nat) (N : ℚ) (hN : 0 ≤ N)
    (p : String) : 0 ≤ avgOf cm N p := by
  unfold avgOf
  apply div_nonneg
  · have := genTokens_total_ge cm N hN (getPathTokens p) 0 ("", 0, 1)
    simpa using this
  · exact Nat.cast_nonneg _

/-- Helper: every member of a confidence group is nonnegative. -/
theorem mem_avgsForAux_nonneg (cm : Nat → String → Nat) (N : ℚ) (hN : 0 ≤ N)
    (l : List ApiTraceRec) (k : String) (a : ℚ)
    (h : a ∈ avgsForAux cm N l k) : 0 ≤ a := by
  unfold avgsForAux at h
  rcases List.mem_map.mp h with ⟨t, _, rfl⟩
  exact avgOf_nonneg cm N hN t.path

/-- Helper: extending the processed sample by one trace extends exactly its
own template's confidence group. -/
theorem avgsForAux_append_single (cm : Nat → String → Nat) (N : ℚ)
    (pre : List ApiTraceRec) (t : ApiTraceRec) (k : String) :
    avgsForAux cm N (pre ++ [t]) k =
      avgsForAux cm N pre k ++
        (if templateOf cm N t.path = k then [avgOf cm N t.path] else []) := by
  unfold avgsForAux
  rw [List.filter_append, List.map_append]
  congr 1
  by_cases h : templateOf cm N t.path = k
  · simp [h]
  · simp [h]

/-- Helper: membership in a sorted insertion comes from the inserted key or
the original list. -/
theorem insertSorted_mem (f : String → ℚ) (k a : String) :
    ∀ (l : List String), a ∈ insertSorted f k l → a = k ∨ a ∈ l := by
  intro l
  induction l with
  | nil =>
      intro h
      left
      simpa [insertSorted] using h
  | cons x xs ih =>
      intro h
      unfold insertSorted at h
      by_cases hc : f x < f k
      · rw [if_pos hc] at h
        rcases List.mem_cons.mp h with h1 | h1
        · left; exact h1
        · right; exact h1
      · rw [if_neg hc] at h
        rcases List.mem_cons.mp h with h1 | h1
        · right
          rw [h1]
          exact List.mem_cons_self _ _
        · rcases ih h1 with h2 | h2
          · left; exact h2
          · right; exact List.mem_cons_of_mem _ h2

/-- Helper: sorted insertion preserves descending order. -/
theorem insertSorted_pairwise (f : String → ℚ) (k : String) :
    ∀ (l : List String), l.Pairwise (fun a b => f b ≤ f a) →
      (insertSorted f k l).Pairwise (fun a b => f b ≤ f a) := by
  intro l
  induction l with
  | nil => intro _; simp [insertSorted]
  | cons x xs ih =>
      intro hp
      rcases List.pairwise_cons.mp hp with ⟨hx, hxs⟩
      unfold insertSorted
      by_cases hc : f x < f k
      · rw [if_pos hc]
        refine List.Pairwise.cons ?_ hp
        intro b hb
        rcases List.mem_cons.mp hb with h1 | h1
        · rw [h1]; linarith
        · have := hx b h1; linarith
      · rw [if_neg hc]
        refine List.Pairwise.cons ?_ (ih hxs)
        intro b hb
        rcases insertSorted_mem f k b xs hb with h1 | h1
        · rw [h1]
          exact le_of_not_lt hc
        · exact hx b h1

/-- Helper: the comparator sort emits keys in descending stored-confidence
order. -/
theorem sortKeysDesc_pairwise (dp : List (String × ℚ)) :
    (sortKeysDesc dp).Pairwise (fun a b =>
      (lookupA dp b).getD 0 ≤ (lookupA dp a).getD 0) := by
  unfold sortKeysDesc
  have hgen : ∀ (keys : List String) (acc : List String),
      acc.Pairwise (fun a b =>
        (lookupA dp b).getD 0 ≤ (lookupA dp a).getD 0) →
      (keys.foldl (fun acc k =>
        insertSorted (fun s => (lookupA dp s).getD 0) k acc) acc).Pairwise
        (fun a b => (lookupA dp b).getD 0 ≤ (lookupA dp a).getD 0) := by
    intro keys
    induction keys with
    | nil => intro acc h; exact h
    | cons k ks ih =>
        intro acc h
        exact ih _ (insertSorted_pairwise _ k acc h)
  exact hgen _ [] (by simp)

/-- Helper: the running-maximum invariant of the distinct-template fold:
starting from a state whose stored values are exactly the maxima over the
already-processed traces (all of whose templates are present), folding the
remaining traces yields the maxima over the full processed list. -/
theorem getDistinctPaths_fold_inv (cm : Nat → String → Nat) (N : ℚ)
    (hN : 0 ≤ N) :
    ∀ (l pre : List ApiTraceRec) (dp : List (String × ℚ)),
      (∀ k v, lookupA dp k = some v →
        v ∈ avgsForAux cm N pre k ∧ ∀ a ∈ avgsForAux cm N pre k, a ≤ v) →
      (∀ t ∈ pre, (lookupA dp (templateOf cm N t.path)).isSome = true) →
      (∀ k v, lookupA (l.foldl (fun dp t =>
          insertMaxStep dp (templateOf cm N t.path) (avgOf cm N t.path))
          dp) k = some v →
        v ∈ avgsForAux cm N (pre ++ l) k ∧
          ∀ a ∈ avgsForAux cm N (pre ++ l) k, a ≤ v) := by
  intro l
  induction l with
  | nil =>
      intro pre dp h1 _ k v hv
      simpa using h1 k v hv
  | cons t rest ih =>
      intro pre dp h1 h2 k v hv
      simp only [List.foldl_cons] at hv
      have hres := ih (pre ++ [t])
        (insertMaxStep dp (templateOf cm N t.path) (avgOf cm N t.path))
        ?_ ?_ k v hv
      · rw [List.append_assoc] at hres
        simpa using hres
      · intro k2 v2 hv2
        by_cases hk : k2 = templateOf cm N t.path
        · subst hk
          rw [lookupA_insertMaxStep_self] at hv2
          rw [avgsForAux_append_single, if_pos rfl]
          rcases hl : lookupA dp (templateOf cm N t.path) with _ | v0
          · simp only [hl] at hv2
            have hv2' : avgOf cm N t.path = v2 := Option.some.inj hv2
            have hempty : avgsForAux cm N pre (templateOf cm N t.path) = [] := by
              unfold avgsForAux
              rw [List.map_eq_nil_iff]
              rw [List.filter_eq_nil_iff]
              intro x hx
              simp only [beq_iff_eq]
              intro hT
              have := h2 x hx
              rw [hT, hl] at this
              simp at this
            rw [hempty]
            constructor
            · simp [hv2']
            · intro a ha
              simp only [List.nil_append, List.mem_singleton] at ha
              simp [ha, hv2']
          · simp only [hl] at hv2
            have hmax := h1 _ _ hl
            have hnn : 0 ≤ avgOf cm N t.path := avgOf_nonneg cm N hN t.path
            by_cases hc : v0 = 0 ∨ avgOf cm N t.path > v0
            · rw [if_pos hc] at hv2
              simp only [Option.some.injEq] at hv2
              subst hv2
              constructor
              · exact List.mem_append_right _ (List.mem_singleton.mpr rfl)
              · intro a ha
                rcases List.mem_append.mp ha with h3 | h3
                · have hle := hmax.2 a h3
                  rcases hc with hc0 | hcg
                  · rw [hc0] at hle
                    linarith
                  · linarith
                · rw [List.mem_singleton.mp h3]
            · rw [if_neg hc] at hv2
              simp only [Option.some.injEq] at hv2
              subst hv2
              constructor
              · exact List.mem_append_left _ hmax.1
              · intro a ha
                rcases List.mem_append.mp ha with h3 | h3
                · exact hmax.2 a h3
                · rw [List.mem_singleton.mp h3]
                  push_neg at hc
                  exact hc.2
        · rw [lookupA_insertMaxStep_ne _ _ _ _ hk] at hv2
          rw [avgsForAux_append_single, if_neg (fun he => hk he.symm)]
          simpa using h1 k2 v2 hv2
      · intro t2 ht2
        rcases List.mem_append.mp ht2 with h3 | h3
        · exact isSome_lookupA_insertMaxStep _ _ _ _ (h2 t2 h3)
        · rw [List.mem_singleton.mp h3]
          rw [lookupA_insertMaxStep_self]
          rfl

/-- Claim C6: for a sample whose paths all tokenize nonempty, the
generalizer's output is truncated to at most 100 templates, sorted by
descending stored confidence, and each stored template confidence is the
maximum, over all source paths generalizing to that template, of the
average per-segment occurrence fraction. -/
theorem getTopSuggestedPaths_props (traces : List ApiTraceRec)
    (_h : ∀ t ∈ traces, getPathTokens t.path ≠ []) :
    (getTopSuggestedPaths traces).length ≤ 100 ∧
    (getTopSuggestedPaths traces).Pairwise (fun a b =>
      (lookupA (distinctPathsOf traces) b).getD 0 ≤
        (lookupA (distinctPathsOf traces) a).getD 0) ∧
    (∀ k v, lookupA (distinctPathsOf traces) k = some v →
      v ∈ avgsFor traces k ∧ ∀ a ∈ avgsFor traces k, a ≤ v) := by
  refine ⟨?_, ?_, ?_⟩
  · unfold getTopSuggestedPaths
    rw [List.length_take]
    exact min_le_left _ _
  · unfold getTopSuggestedPaths
    exact List.Pairwise.sublist (List.take_sublist _ _)
      (sortKeysDesc_pairwise (distinctPathsOf traces))
  · intro k v hv
    have hinv := getDistinctPaths_fold_inv (getCounterMap traces)
      (traces.length : ℚ) (Nat.cast_nonneg _) traces [] []
      (by intro k2 v2 hv2; simp [lookupA] at hv2)
      (by intro t ht; simp at ht)
      k v (by
        unfold distinctPathsOf getDistinctPaths at hv
        exact hv)
    unfold avgsFor
    simpa using hinv

/-- Witness for C6: the three-trace sample `tracesC6` satisfies the
truncation, sorting and maximum-confidence properties. -/
theorem getTopSuggestedPaths_props_witness :
    (getTopSuggestedPaths tracesC6).length ≤ 100 ∧
    (getTopSuggestedPaths tracesC6).Pairwise (fun a b =>
      (lookupA (distinctPathsOf tracesC6) b).getD 0 ≤
        (lookupA (distinctPathsOf tracesC6) a).getD 0) ∧
    (∀ k v, lookupA (distinctPathsOf tracesC6) k = some v →
      v ∈ avgsFor tracesC6 k ∧ ∀ a ∈ avgsFor tracesC6 k, a ≤ v) :=
  getTopSuggestedPaths_props tracesC6 (by decide)

end

end Metlo
